import Mathlib

/-!
SD-card block I/O (Drivers/BSP/Src/sd.c): embedding and verified properties.

The C functions of `sd.c` are embedded as Lean functions over an explicit machine
state.  Everything the C code obtains from outside the file (the millisecond tick,
the card state, the status of a driver transfer, the error bit mask) is read from a
script `Env`, indexed by how many times that source has been read so far, so that a
theorem quantified over `Env` covers every behaviour of the hardware.

Conventions
* `uint32_t` values are `Nat` with explicit reduction modulo `2 ^ 32`; bytes are `Nat`
  with explicit reduction modulo `256`.
* A pointer to a buffer is `Option Nat`: `none` is `NULL`, `some b` is buffer `b`.
* The busy-wait loop of `SD_WaitReady` takes a bound on its number of iterations
  (`fuel`); running out of it is the result `Stop.fuel`.
* The log is kept newest event first.
-/

namespace SD

/-! ## Machine integers -/

/-- Number of values of `uint32_t`. -/
def U32 : Nat := 4294967296

/-- Subtraction `a - b` on `uint32_t` (wraps around). -/
def sub32 (a b : Nat) : Nat := (a % U32 + U32 - b % U32) % U32

/-- Multiplication `a * b` on `uint32_t` (wraps around). -/
def mul32 (a b : Nat) : Nat := (a * b) % U32

/-- Addition `a + b` on `uint32_t` (wraps around). -/
def add32 (a b : Nat) : Nat := (a + b) % U32

/-- Bitwise complement on `uint32_t`. -/
def not32 (a : Nat) : Nat := (U32 - 1) ^^^ (a % U32)

/-- `SD_BLOCK_SIZE` of sd.h. -/
def SD_BLOCK_SIZE : Nat := 512

/-! ## Status, configuration, events -/

/-- The four values of the HAL status type that sd.c returns. -/
inductive HAL_StatusTypeDef where
  | HAL_OK
  | HAL_ERROR
  | HAL_BUSY
  | HAL_TIMEOUT
  deriving DecidableEq, Repr

open HAL_StatusTypeDef

/-- Status taxonomy in the words of the specification (section 7); it lists
`InvalidArgument` next to `Error`. -/
inductive SpecStatus where
  | Ok
  | InvalidArgument
  | Busy
  | TimedOut
  | Error
  deriving DecidableEq, Repr

/-- How the four status values of the code read in the taxonomy of the specification. -/
def HAL_StatusTypeDef.toSpec : HAL_StatusTypeDef → SpecStatus
  | HAL_OK => SpecStatus.Ok
  | HAL_ERROR => SpecStatus.Error
  | HAL_BUSY => SpecStatus.Busy
  | HAL_TIMEOUT => SpecStatus.TimedOut

/-- Constants that sd.c uses and that are defined outside of it: the `DEBUG` switch,
the three test macros of `SD_MeasureTest`, and the card-state codes of the HAL.  They
are parameters of the embedding. -/
structure Config where
  DEBUG : Bool
  SD_TEST_BLOCKS : Nat
  SD_TEST_BLOCK_START : Nat
  SD_TIMEOUT_MS : Nat
  HAL_SD_CARD_READY : Nat
  HAL_SD_CARD_TRANSFER : Nat
  HAL_SD_CARD_SENDING : Nat
  HAL_SD_CARD_RECEIVING : Nat
  HAL_SD_CARD_PROGRAMMING : Nat
  HAL_SD_CARD_DISCONNECTED : Nat
  HAL_SD_CARD_ERROR : Nat

/-- The `case` labels of the `switch` in `SD_Check` are pairwise different (a C
compiler rejects the `switch` otherwise). -/
def Config.statesDistinct (c : Config) : Prop :=
  [c.HAL_SD_CARD_TRANSFER, c.HAL_SD_CARD_READY, c.HAL_SD_CARD_SENDING,
   c.HAL_SD_CARD_RECEIVING, c.HAL_SD_CARD_PROGRAMMING, c.HAL_SD_CARD_DISCONNECTED,
   c.HAL_SD_CARD_ERROR].Nodup

instance (c : Config) : Decidable c.statesDistinct := by
  unfold Config.statesDistinct; infer_instance

/-- Direction of a driver transfer. -/
inductive Dir where
  | read
  | write
  deriving DecidableEq, Repr

/-- What the driver answers to one transfer call: the status it returns, and the
bytes the transport corrupts on the way, as `(offset, value)` pairs that override the
transferred data (`[]` for a clean transfer). -/
structure Resp where
  status : HAL_StatusTypeDef
  noise : List (Nat × Nat)
  deriving DecidableEq, Repr

/-- The `printf` calls of sd.c, one constructor per call site, with the arguments
that the embedding tracks. -/
inductive Msg where
  | cardStateAbnormal (state : Nat)
  | waitReadyTimeout (timeout : Nat)
  | paramNullData
  | paramZeroBlocks
  | writeBlocksFail (status : HAL_StatusTypeDef)
  | readBlocksFail (status : HAL_StatusTypeDef)
  | testBlocksZero
  | testBlocksOverLimit
  | testBegin
  | checkReady
  | cardNotReady (state : Nat)
  | backupBegin (first last : Nat)
  | backupReadFail (status : HAL_StatusTypeDef)
  | backupDone (ms : Nat)
  | prepareWrite
  | writeBegin
  | multiWriteFail (round : Nat) (status : HAL_StatusTypeDef)
  | writeNotReady
  | writeDone (ms : Nat)
  | verifyBegin
  | blockReadTimeout (block : Nat)
  | verifyMismatch (block offset expected actual : Nat)
  | verifyPass
  | writeSpeed (mb_int mb_dec kb_int kb_dec : Nat)
  | readSpeed (mb_int mb_dec kb_int kb_dec : Nat)
  | totalData (total_kb write_ms read_ms : Nat)
  | verifyFail (errors : Nat)
  | restoreBegin
  | restoreDone (ms : Nat)
  | testEnd
  | diagBegin (operation : String)
  | diagErrorCode (error_code : Nat)
  | diagHandleState
  | zeroCode
  | zeroCodeAdvice (line : Nat)
  | diagEnd
  | errEntry (name : String) (bit : Nat) (meaning : String)
  | errCause (root_cause : String)
  | unknownBits (bits : Nat)
  | unknownBitsAdvice
  | noKnownError
  deriving DecidableEq, Repr

/-- Observable actions of the subsystem. -/
inductive Event where
  | poll (state : Nat)
  | irqOff
  | irqOn
  | xfer (d : Dir) (buf blk n timeout : Nat) (r : Resp)
  | getError (error_code : Nat)
  | print (m : Msg)
  deriving DecidableEq, Repr

/-- Reasons for which an execution of the embedding yields no status. -/
inductive Stop where
  | fuel
  | divByZero
  deriving DecidableEq, Repr

/-! ## Hardware -/

/-- Script of the hardware: the value of the `k`-th read of the tick counter, of the
card state, of the error mask, and the answer to the `k`-th driver transfer. -/
structure Env where
  tick : Nat → Nat
  cardState : Nat → Nat
  xfer : Nat → Resp
  error : Nat → Nat

/-- Machine state: how often each source has been read, the interrupt-enable flag,
the bytes on the card (by byte address), the buffers in RAM, and the log. -/
structure State where
  nTick : Nat
  nPoll : Nat
  nXfer : Nat
  nErr : Nat
  irq : Bool
  card : Nat → Nat
  mem : Nat → List Nat
  log : List Event

/-- Text output. -/
def printf (m : Msg) (s : State) : State :=
  { s with log := Event.print m :: s.log }

/-- Read of the millisecond tick counter. -/
def HAL_GetTick (E : Env) (s : State) : Nat × State :=
  (E.tick s.nTick % U32, { s with nTick := s.nTick + 1 })

/-- Read of the card state from the hardware. -/
def HAL_SD_GetCardState (E : Env) (s : State) : Nat × State :=
  (E.cardState s.nPoll,
   { s with nPoll := s.nPoll + 1, log := Event.poll (E.cardState s.nPoll) :: s.log })

/-- Read of the error bit mask of the driver. -/
def HAL_SD_GetError (E : Env) (s : State) : Nat × State :=
  (E.error s.nErr % U32,
   { s with nErr := s.nErr + 1, log := Event.getError (E.error s.nErr % U32) :: s.log })

/-- Clears the global interrupt-enable flag. -/
def __disable_irq (s : State) : State :=
  { s with irq := false, log := Event.irqOff :: s.log }

/-- Sets the global interrupt-enable flag. -/
def __enable_irq (s : State) : State :=
  { s with irq := true, log := Event.irqOn :: s.log }

/-- Data of a transfer after the corruption `noise` of the transport. -/
def patch (noise : List (Nat × Nat)) (data : List Nat) : List Nat :=
  noise.foldl (fun d p => d.set p.1 (p.2 % 256)) data

/-- The `n` blocks of the card that start at block `blk`, as a list of bytes. -/
def cardRead (card : Nat → Nat) (blk n : Nat) : List Nat :=
  (List.range (n * SD_BLOCK_SIZE)).map (fun i => card (blk * SD_BLOCK_SIZE + i))

/-- The card after `data` has been stored in the `n` blocks that start at `blk`. -/
def cardWrite (card : Nat → Nat) (blk n : Nat) (data : List Nat) : Nat → Nat :=
  fun a =>
    if blk * SD_BLOCK_SIZE ≤ a ∧ a < blk * SD_BLOCK_SIZE + n * SD_BLOCK_SIZE then
      data.getD (a - blk * SD_BLOCK_SIZE) 0
    else card a

/-- Buffers after buffer `b` has been replaced by `v`. -/
def setBuf (mem : Nat → List Nat) (b : Nat) (v : List Nat) : Nat → List Nat :=
  fun k => if k = b then v else mem k

/-- Multi-block read of the driver, in polling mode: the bytes of the card, as
corrupted by the transport, arrive in buffer `buf`; the status is that of the script. -/
def HAL_SD_ReadBlocks (E : Env) (buf blk n timeout : Nat) (s : State) :
    HAL_StatusTypeDef × State :=
  let r := E.xfer s.nXfer
  let data := patch r.noise (cardRead s.card blk n)
  (r.status,
   { s with
     nXfer := s.nXfer + 1
     mem := setBuf s.mem buf (data ++ (s.mem buf).drop (n * SD_BLOCK_SIZE))
     log := Event.xfer Dir.read buf blk n timeout r :: s.log })

/-- Multi-block write of the driver, in polling mode: the bytes of buffer `buf`, as
corrupted by the transport, arrive on the card; the status is that of the script. -/
def HAL_SD_WriteBlocks (E : Env) (buf blk n timeout : Nat) (s : State) :
    HAL_StatusTypeDef × State :=
  let r := E.xfer s.nXfer
  let data := patch r.noise (s.mem buf)
  (r.status,
   { s with
     nXfer := s.nXfer + 1
     card := cardWrite s.card blk n data
     log := Event.xfer Dir.write buf blk n timeout r :: s.log })

/-! ## sd.c -/

/-- One row of the error table of `SD_ErrorHandler`. -/
structure ErrRow where
  bit : Nat
  name : String
  meaning : String
  root_cause : String
  deriving DecidableEq, Repr

/-- The table `err_tbl` of `SD_ErrorHandler`. -/
def err_tbl : List ErrRow :=
  [ ⟨0x00000001, "CCRC_FAIL", "命令响应CRC错误", "信号完整性差/时钟太高"⟩,
    ⟨0x00000002, "DCRC_FAIL", "数据块CRC错误", "时钟>卡极限/线长阻抗差/未切换高速模式"⟩,
    ⟨0x00000004, "CTIMEOUT", "命令响应超时", "卡掉线/供电不足/识别阶段时钟>400kHz"⟩,
    ⟨0x00000008, "DTIMEOUT", "数据超时(DAT0未拉低)", "卡无响应/块地址越界/写保护"⟩,
    ⟨0x00000010, "TX_UNDERRUN", "发送FIFO下溢", "DMA没跟上/中断打断/时钟太高"⟩,
    ⟨0x00000020, "RX_OVERRUN", "接收FIFO溢出", "读操作DMA太慢/FIFO阈值设置不当"⟩,
    ⟨0x00000040, "ADDR_MISALIGNED", "地址未4字节对齐",
      "缓冲区地址未对齐，需__attribute__((aligned(4)))"⟩,
    ⟨0x00000080, "BLOCK_LEN", "块长度错误", "块大小≠512字节"⟩,
    ⟨0x00000400, "WRITE_PROT", "写保护", "卡物理写保护开关打开"⟩,
    ⟨0x00000800, "LOCK_UNLOCK_FAILED", "锁卡命令失败", "卡已设密码，需CMD42解锁"⟩,
    ⟨0x00001000, "CARD_IS_LOCKED", "卡处于锁定状态", "卡被锁定，无法操作"⟩,
    ⟨0x00002000, "CARD_NOT_SUPPORTED", "卡不支持", "电压/功能不匹配"⟩,
    ⟨0x00004000, "REQUEST_NOT_SUPPORTED", "命令不支持", "发送了非法CMD"⟩,
    ⟨0x00008000, "INVALID_PARAMETER", "参数无效", "越界/NULL指针"⟩,
    ⟨0x00010000, "UNSUPPORTED_FEATURE", "功能不支持", "当前传输模式不支持"⟩,
    ⟨0x00020000, "BUSY", "卡忙", "卡正忙，拒绝新命令"⟩,
    ⟨0x00040000, "DMA", "DMA错误", "DMA传输中断/TEIF标志"⟩,
    ⟨0x00080000, "TIMEOUT", "软件超时", "HAL等待事件超时"⟩ ]

/-- First loop of `SD_ErrorHandler` (lines 615-624): prints every row of the table
whose bit is set in `error_code` and records in `found_error` that there was one. -/
def SD_ErrorHandler.scan (error_code : Nat) : List ErrRow → Nat × State → Nat × State
  | [], acc => acc
  | row :: rest, (found_error, s) =>
    if error_code &&& row.bit ≠ 0 then
      SD_ErrorHandler.scan error_code rest
        (1, printf (Msg.errCause row.root_cause)
              (printf (Msg.errEntry row.name row.bit row.meaning) s))
    else SD_ErrorHandler.scan error_code rest (found_error, s)

/-- Second loop of `SD_ErrorHandler` (lines 631-634): the union of the bits of the table. -/
def SD_ErrorHandler.known_mask : List ErrRow → Nat → Nat
  | [], known_mask => known_mask
  | row :: rest, known_mask => SD_ErrorHandler.known_mask rest (known_mask ||| row.bit)

/-- `SD_ErrorHandler` (lines 560-650). -/
def SD_ErrorHandler (E : Env) (operation : String) (s : State) : State :=
  let (error_code, s) := HAL_SD_GetError E s
  let s := printf (Msg.diagBegin operation) s
  let s := printf (Msg.diagErrorCode error_code) s
  let s := printf Msg.diagHandleState s
  if error_code = 0 then
    let s := printf Msg.zeroCode s
    let s := printf (Msg.zeroCodeAdvice 0) s
    let s := printf (Msg.zeroCodeAdvice 1) s
    let s := printf (Msg.zeroCodeAdvice 2) s
    let s := printf (Msg.zeroCodeAdvice 3) s
    printf Msg.diagEnd s
  else
    let (found_error, s) := SD_ErrorHandler.scan error_code err_tbl (0, s)
    let known_mask := SD_ErrorHandler.known_mask err_tbl 0
    let s :=
      if error_code &&& not32 known_mask ≠ 0 then
        printf Msg.unknownBitsAdvice
          (printf (Msg.unknownBits (error_code &&& not32 known_mask)) s)
      else s
    let s := if found_error = 0 then printf Msg.noKnownError s else s
    printf Msg.diagEnd s

/-- `SD_Check` (lines 122-160). -/
def SD_Check (c : Config) (E : Env) (s : State) : HAL_StatusTypeDef × State :=
  let (card_state, s) := HAL_SD_GetCardState E s
  if card_state = c.HAL_SD_CARD_TRANSFER ∨ card_state = c.HAL_SD_CARD_READY then
    (HAL_OK, s)
  else if card_state = c.HAL_SD_CARD_SENDING ∨ card_state = c.HAL_SD_CARD_RECEIVING
      ∨ card_state = c.HAL_SD_CARD_PROGRAMMING then
    (HAL_BUSY, s)
  else if card_state = c.HAL_SD_CARD_DISCONNECTED then
    (HAL_TIMEOUT, s)
  else if card_state = c.HAL_SD_CARD_ERROR then
    (HAL_ERROR,
     if c.DEBUG then
       SD_ErrorHandler E "检查" (printf (Msg.cardStateAbnormal (card_state % U32)) s)
     else s)
  else
    (HAL_ERROR, s)

/-- The `while` loop of `SD_WaitReady` (lines 177-184).  `fuel` bounds the number of
times the body runs: the loop test is evaluated first, and the run stops with
`Stop.fuel` only when the body would have to run with no fuel left. -/
def SD_WaitReady.loop (c : Config) (E : Env) (Timeout tickstart_local : Nat) :
    Nat → State → Except Stop (HAL_StatusTypeDef × State)
  | 0, s =>
    let (now, s1) := HAL_GetTick E s
    if sub32 now tickstart_local < Timeout then Except.error Stop.fuel
    else Except.ok (HAL_TIMEOUT, s1)
  | fuel + 1, s =>
    let (now, s1) := HAL_GetTick E s
    if sub32 now tickstart_local < Timeout then
      let (card_state, s2) := HAL_SD_GetCardState E s1
      if card_state = c.HAL_SD_CARD_TRANSFER then Except.ok (HAL_OK, s2)
      else SD_WaitReady.loop c E Timeout tickstart_local fuel s2
    else Except.ok (HAL_TIMEOUT, s1)

/-- `SD_WaitReady` (lines 170-194). -/
def SD_WaitReady (c : Config) (E : Env) (fuel : Nat) (Timeout : Nat) (s : State) :
    Except Stop (HAL_StatusTypeDef × State) :=
  let (tickstart_local, s) := HAL_GetTick E s
  match SD_WaitReady.loop c E Timeout tickstart_local fuel s with
  | Except.error e => Except.error e
  | Except.ok (status, s) =>
    if c.DEBUG ∧ status ≠ HAL_OK then
      Except.ok (status, printf (Msg.waitReadyTimeout Timeout) s)
    else Except.ok (status, s)

/-- `SD_WriteBlocks` (lines 206-251). -/
def SD_WriteBlocks (c : Config) (E : Env) (fuel : Nat) (pData : Option Nat)
    (BlockAdd NumberOfBlocks Timeout : Nat) (s : State) :
    Except Stop (HAL_StatusTypeDef × State) :=
  match pData with
  | none => Except.ok (HAL_ERROR, if c.DEBUG then printf Msg.paramNullData s else s)
  | some buf =>
    if NumberOfBlocks = 0 then
      Except.ok (HAL_ERROR, if c.DEBUG then printf Msg.paramZeroBlocks s else s)
    else
      match SD_WaitReady c E fuel Timeout s with
      | Except.error e => Except.error e
      | Except.ok (status, s) =>
        if status ≠ HAL_OK then Except.ok (status, s)
        else
          let s := __disable_irq s
          let (status, s) := HAL_SD_WriteBlocks E buf BlockAdd NumberOfBlocks Timeout s
          let s :=
            if status ≠ HAL_OK ∧ c.DEBUG then
              SD_ErrorHandler E "写入" (printf (Msg.writeBlocksFail status) s)
            else s
          let s := __enable_irq s
          Except.ok (status, s)

/-- `SD_ReadBlocks` (lines 262-307). -/
def SD_ReadBlocks (c : Config) (E : Env) (fuel : Nat) (pData : Option Nat)
    (BlockAdd NumberOfBlocks Timeout : Nat) (s : State) :
    Except Stop (HAL_StatusTypeDef × State) :=
  match pData with
  | none => Except.ok (HAL_ERROR, if c.DEBUG then printf Msg.paramNullData s else s)
  | some buf =>
    if NumberOfBlocks = 0 then
      Except.ok (HAL_ERROR, if c.DEBUG then printf Msg.paramZeroBlocks s else s)
    else
      match SD_WaitReady c E fuel Timeout s with
      | Except.error e => Except.error e
      | Except.ok (status, s) =>
        if status ≠ HAL_OK then Except.ok (status, s)
        else
          let s := __disable_irq s
          let (status, s) := HAL_SD_ReadBlocks E buf BlockAdd NumberOfBlocks Timeout s
          let s :=
            if status ≠ HAL_OK ∧ c.DEBUG then
              SD_ErrorHandler E "读取" (printf (Msg.readBlocksFail status) s)
            else s
          let s := __enable_irq s
          Except.ok (status, s)

/-! ## SD_MeasureTest (sd.c, lines 324-550; compiled in `DEBUG` builds only) -/

/-- The static array `sd_backup_buf`. -/
def sd_backup_buf : Nat := 0

/-- The static array `sd_read_buf`. -/
def sd_read_buf : Nat := 1

/-- Addition on `uint8_t`. -/
def add8 (a b : Nat) : Nat := (a + b) % 256

/-- Subtraction on `uint8_t`. -/
def sub8 (a b : Nat) : Nat := (a % 256 + 256 - b % 256) % 256

/-- Division on `uint32_t`; a zero divisor stops the execution. -/
def udiv32 (a b : Nat) : Except Stop Nat :=
  if b = 0 then Except.error Stop.divByZero else Except.ok (a / b)

/-- The loop `for (i = 0U; i < n; i++) body(i)`. -/
def forUpTo {σ : Type} (n : Nat) (body : Nat → σ → σ) (init : σ) : σ :=
  (List.range n).foldl (fun acc i => body i acc) init

/-- Where control is after a block of statements of `SD_MeasureTest`: after the block
(`next`), out of the function (`ret`, a `return status;`), or at the label
`restore_data` (`gotoRestore`, with the value the local `status` has at the jump). -/
inductive Flow (α : Type) where
  | next (a : α) (s : State)
  | ret (status : HAL_StatusTypeDef) (s : State)
  | gotoRestore (status : HAL_StatusTypeDef) (s : State)

/-- Sequencing of two blocks of statements. -/
def Flow.andThen {α β : Type} (m : Except Stop (Flow α))
    (f : α → State → Except Stop (Flow β)) : Except Stop (Flow β) :=
  match m with
  | Except.error e => Except.error e
  | Except.ok (Flow.next a s) => f a s
  | Except.ok (Flow.ret status s) => Except.ok (Flow.ret status s)
  | Except.ok (Flow.gotoRestore status s) => Except.ok (Flow.gotoRestore status s)

/-- Step 1 (lines 359-366): the card has to be in the transfer state. -/
def SD_MeasureTest.checkReady (c : Config) (E : Env) (s : State) :
    Except Stop (Flow Unit) :=
  let s := printf Msg.checkReady s
  let (card_state, s) := HAL_SD_GetCardState E s
  if card_state ≠ c.HAL_SD_CARD_TRANSFER then
    Except.ok (Flow.ret HAL_ERROR (printf (Msg.cardNotReady (card_state % U32)) s))
  else Except.ok (Flow.next () s)

/-- The four reads of the backup (lines 374-382); `rounds` is the number of
iterations that are left. -/
def SD_MeasureTest.backupLoop (c : Config) (E : Env) (fuel : Nat) :
    Nat → State → Except Stop (Flow Unit)
  | 0, s => Except.ok (Flow.next () s)
  | rounds + 1, s =>
    match SD_ReadBlocks c E fuel (some sd_backup_buf) c.SD_TEST_BLOCK_START
        c.SD_TEST_BLOCKS c.SD_TIMEOUT_MS s with
    | Except.error e => Except.error e
    | Except.ok (status, s) =>
      if status ≠ HAL_OK then
        Except.ok (Flow.ret status (printf (Msg.backupReadFail status) s))
      else SD_MeasureTest.backupLoop c E fuel rounds s

/-- Step 2 (lines 368-393): backup of the test range; yields `backup_read_time_ms`. -/
def SD_MeasureTest.backup (c : Config) (E : Env) (fuel : Nat) (s : State) :
    Except Stop (Flow Nat) :=
  let s := printf (Msg.backupBegin (c.SD_TEST_BLOCK_START % U32)
    (sub32 (add32 c.SD_TEST_BLOCK_START c.SD_TEST_BLOCKS) 1)) s
  let (tick_start, s) := HAL_GetTick E s
  Flow.andThen (SD_MeasureTest.backupLoop c E fuel 4 s) fun _ s =>
    match SD_WaitReady c E fuel (mul32 c.SD_TIMEOUT_MS 15) s with
    | Except.error e => Except.error e
    | Except.ok (status, s) =>
      if status ≠ HAL_OK then Except.ok (Flow.ret status s)
      else
        let (tick_end, s) := HAL_GetTick E s
        let backup_read_time_ms := sub32 tick_end tick_start
        Except.ok (Flow.next backup_read_time_ms
          (printf (Msg.backupDone backup_read_time_ms) s))

/-- Step 3 (lines 395-400): every byte of the backup plus `0x0A`. -/
def SD_MeasureTest.mutate (c : Config) (s : State) : State :=
  let s := printf Msg.prepareWrite s
  { s with
    mem := setBuf s.mem sd_backup_buf
      (forUpTo (mul32 c.SD_TEST_BLOCKS SD_BLOCK_SIZE)
        (fun i buf => buf.set i (add8 (buf.getD i 0) 0x0A)) (s.mem sd_backup_buf)) }

/-- The four writes of the test data (lines 408-416); `j` is the loop counter and
`rounds` the number of iterations that are left. -/
def SD_MeasureTest.writeLoop (c : Config) (E : Env) (fuel : Nat) :
    Nat → Nat → State → Except Stop (Flow Unit)
  | 0, _, s => Except.ok (Flow.next () s)
  | rounds + 1, j, s =>
    match SD_WriteBlocks c E fuel (some sd_backup_buf) c.SD_TEST_BLOCK_START
        c.SD_TEST_BLOCKS c.SD_TIMEOUT_MS s with
    | Except.error e => Except.error e
    | Except.ok (status, s) =>
      if status ≠ HAL_OK then
        Except.ok (Flow.gotoRestore status
          (printf (Msg.multiWriteFail (add32 j 1) status) s))
      else SD_MeasureTest.writeLoop c E fuel rounds (j + 1) s

/-- Step 4 (lines 402-427): the write of the test data; yields `write_time_ms`. -/
def SD_MeasureTest.write (c : Config) (E : Env) (fuel : Nat) (s : State) :
    Except Stop (Flow Nat) :=
  let s := printf Msg.writeBegin s
  let (tick_start, s) := HAL_GetTick E s
  Flow.andThen (SD_MeasureTest.writeLoop c E fuel 4 0 s) fun _ s =>
    match SD_WaitReady c E fuel (mul32 c.SD_TIMEOUT_MS 15) s with
    | Except.error e => Except.error e
    | Except.ok (status, s) =>
      if status ≠ HAL_OK then
        Except.ok (Flow.gotoRestore status (printf Msg.writeNotReady s))
      else
        let (tick_end, s) := HAL_GetTick E s
        let write_time_ms := sub32 tick_end tick_start
        Except.ok (Flow.next write_time_ms (printf (Msg.writeDone write_time_ms) s))

/-- Body of the comparison loop (lines 460-469) for byte `j` of block `i`. -/
def SD_MeasureTest.compareByte (c : Config) (i j : Nat) (acc : Nat × State) :
    Nat × State :=
  let (verify_errors, s) := acc
  let expected := (s.mem sd_backup_buf).getD (add32 (mul32 i SD_BLOCK_SIZE) j) 0
  let actual := (s.mem sd_read_buf).getD j 0
  if actual ≠ expected then
    let verify_errors := add32 verify_errors 1
    (verify_errors,
     if verify_errors ≤ 5 then
       printf (Msg.verifyMismatch (add32 c.SD_TEST_BLOCK_START i) j expected actual) s
     else s)
  else (verify_errors, s)

/-- Body of the read-back loop (lines 438-470) for block `i`: the driver read of one
block, the readiness wait, and the comparison of the 512 bytes; yields the new value
of `verify_errors`. -/
def SD_MeasureTest.verifyBlock (c : Config) (E : Env) (fuel : Nat) (i verify_errors : Nat)
    (s : State) : Except Stop (Flow Nat) :=
  let (status, s) :=
    HAL_SD_ReadBlocks E sd_read_buf (add32 c.SD_TEST_BLOCK_START i) 1 c.SD_TIMEOUT_MS s
  if status ≠ HAL_OK then
    Except.ok (Flow.gotoRestore status (SD_ErrorHandler E "读取" s))
  else
    match SD_WaitReady c E fuel c.SD_TIMEOUT_MS s with
    | Except.error e => Except.error e
    | Except.ok (status, s) =>
      if status ≠ HAL_OK then
        Except.ok (Flow.gotoRestore status
          (SD_ErrorHandler E "读取超时"
            (printf (Msg.blockReadTimeout (add32 c.SD_TEST_BLOCK_START i)) s)))
      else
        let compared :=
          forUpTo SD_BLOCK_SIZE (SD_MeasureTest.compareByte c i) (verify_errors, s)
        Except.ok (Flow.next compared.1 compared.2)

/-- The read-back loop (lines 436-471); `i` is the loop counter and `rounds` the
number of iterations that are left. -/
def SD_MeasureTest.verifyLoop (c : Config) (E : Env) (fuel : Nat) :
    Nat → Nat → Nat → State → Except Stop (Flow Nat)
  | 0, _, verify_errors, s => Except.ok (Flow.next verify_errors s)
  | rounds + 1, i, verify_errors, s =>
    Flow.andThen (SD_MeasureTest.verifyBlock c E fuel i verify_errors s)
      fun verify_errors s => SD_MeasureTest.verifyLoop c E fuel rounds (i + 1) verify_errors s

/-- Step 5 (lines 429-471): read back and compare; yields `verify_errors`. -/
def SD_MeasureTest.verify (c : Config) (E : Env) (fuel : Nat) (s : State) :
    Except Stop (Flow Nat) :=
  let s := printf Msg.verifyBegin s
  SD_MeasureTest.verifyLoop c E fuel c.SD_TEST_BLOCKS 0 0 s

/-- Lines 473-511: the speed report when nothing differed, the status
`HAL_ERROR` otherwise; yields the value of the local `status` at the label
`restore_data`. -/
def SD_MeasureTest.report (c : Config) (verify_errors write_time_ms read_time_ms : Nat)
    (s : State) : Except Stop (Flow HAL_StatusTypeDef) :=
  let total_bytes := mul32 c.SD_TEST_BLOCKS SD_BLOCK_SIZE
  if verify_errors = 0 then
    let s := printf Msg.verifyPass s
    let total_kb := mul32 total_bytes 4 / 1024
    match udiv32 (mul32 total_kb 1000) write_time_ms with
    | Except.error e => Except.error e
    | Except.ok write_speed_kbps =>
      let write_speed_kbps_int := write_speed_kbps / 10
      let write_speed_kbps_dec := write_speed_kbps % 10
      match udiv32 (mul32 total_kb 1000) read_time_ms with
      | Except.error e => Except.error e
      | Except.ok read_speed_kbps =>
        let read_speed_kbps_int := read_speed_kbps / 10
        let read_speed_kbps_dec := read_speed_kbps % 10
        let write_speed_mbps_int := write_speed_kbps / 1024
        let write_speed_mbps_dec := mul32 (write_speed_kbps % 1024) 10 / 1024
        let read_speed_mbps_int := read_speed_kbps / 1024
        let read_speed_mbps_dec := mul32 (read_speed_kbps % 1024) 10 / 1024
        let s := printf (Msg.writeSpeed write_speed_mbps_int write_speed_mbps_dec
          write_speed_kbps_int write_speed_kbps_dec) s
        let s := printf (Msg.readSpeed read_speed_mbps_int read_speed_mbps_dec
          read_speed_kbps_int read_speed_kbps_dec) s
        let s := printf (Msg.totalData total_kb write_time_ms read_time_ms) s
        Except.ok (Flow.next HAL_OK s)
  else
    let s := printf (Msg.verifyFail verify_errors) s
    Except.ok (Flow.next HAL_ERROR s)

/-- Lines 332-511: everything above the label `restore_data`. -/
def SD_MeasureTest.body (c : Config) (E : Env) (fuel : Nat) (s : State) :
    Except Stop (Flow HAL_StatusTypeDef) :=
  if c.SD_TEST_BLOCKS = 0 then
    Except.ok (Flow.ret HAL_ERROR (printf Msg.testBlocksZero s))
  else if c.SD_TEST_BLOCKS > 256 then
    Except.ok (Flow.ret HAL_ERROR (printf Msg.testBlocksOverLimit s))
  else
    let s := printf Msg.testBegin s
    Flow.andThen (SD_MeasureTest.checkReady c E s) fun _ s =>
    Flow.andThen (SD_MeasureTest.backup c E fuel s) fun backup_read_time_ms s =>
    let s := SD_MeasureTest.mutate c s
    Flow.andThen (SD_MeasureTest.write c E fuel s) fun write_time_ms s =>
    let read_time_ms := backup_read_time_ms
    Flow.andThen (SD_MeasureTest.verify c E fuel s) fun verify_errors s =>
    SD_MeasureTest.report c verify_errors write_time_ms read_time_ms s

/-- Lines 513-550: the label `restore_data` and what follows it.  The parameter is
the value of the local `status` on arrival; line 526 assigns `status` before
anything reads it. -/
def SD_MeasureTest.restore_data (c : Config) (E : Env) (fuel : Nat)
    (_status : HAL_StatusTypeDef) (s : State) : Except Stop (HAL_StatusTypeDef × State) :=
  let s := printf Msg.restoreBegin s
  let s := { s with
    mem := setBuf s.mem sd_backup_buf
      (forUpTo (mul32 c.SD_TEST_BLOCKS SD_BLOCK_SIZE)
        (fun i buf => buf.set i (sub8 (buf.getD i 0) 0x0A)) (s.mem sd_backup_buf)) }
  let (tick_start, s) := HAL_GetTick E s
  match SD_WriteBlocks c E fuel (some sd_backup_buf) c.SD_TEST_BLOCK_START
      c.SD_TEST_BLOCKS c.SD_TIMEOUT_MS s with
  | Except.error e => Except.error e
  | Except.ok (status, s) =>
    if status ≠ HAL_OK then
      Except.ok (status, printf Msg.testEnd (SD_ErrorHandler E "数据还原" s))
    else
      match SD_WaitReady c E fuel (mul32 c.SD_TIMEOUT_MS 15) s with
      | Except.error e => Except.error e
      | Except.ok (status, s) =>
        if status ≠ HAL_OK then Except.ok (status, printf Msg.testEnd s)
        else
          let (tick_end, s) := HAL_GetTick E s
          let s :=
            if status = HAL_OK then printf (Msg.restoreDone (sub32 tick_end tick_start)) s
            else s
          Except.ok (status, printf Msg.testEnd s)

/-- `SD_MeasureTest` (lines 332-550). -/
def SD_MeasureTest (c : Config) (E : Env) (fuel : Nat) (s : State) :
    Except Stop (HAL_StatusTypeDef × State) :=
  match SD_MeasureTest.body c E fuel s with
  | Except.error e => Except.error e
  | Except.ok (Flow.ret status s) => Except.ok (status, s)
  | Except.ok (Flow.gotoRestore status s) => SD_MeasureTest.restore_data c E fuel status s
  | Except.ok (Flow.next status s) => SD_MeasureTest.restore_data c E fuel status s

/-! ## A concrete board, for the examples -/

/-- Card-state codes of the STM32H7 HAL, a debug build, and a test range of one block
at block 8 with a timeout of 1000 ms. -/
def stm32 : Config :=
  { DEBUG := true
    SD_TEST_BLOCKS := 1
    SD_TEST_BLOCK_START := 8
    SD_TIMEOUT_MS := 1000
    HAL_SD_CARD_READY := 1
    HAL_SD_CARD_TRANSFER := 4
    HAL_SD_CARD_SENDING := 5
    HAL_SD_CARD_RECEIVING := 6
    HAL_SD_CARD_PROGRAMMING := 7
    HAL_SD_CARD_DISCONNECTED := 8
    HAL_SD_CARD_ERROR := 255 }

/-- Initial state: nothing read yet, interrupts enabled, byte `a` of the card holds
`a % 256`, both buffers hold zeroes. -/
def boot : State :=
  { nTick := 0
    nPoll := 0
    nXfer := 0
    nErr := 0
    irq := true
    card := fun a => a % 256
    mem := fun b => if b = sd_backup_buf then List.replicate 512 0
      else if b = sd_read_buf then List.replicate 512 0 else []
    log := [] }

/-- Hardware on which the tick advances by one per read, the card is always in the
transfer state, every transfer is clean and returns `HAL_OK`, and no error bit is set. -/
def calm : Env :=
  { tick := fun k => k
    cardState := fun _ => 4
    xfer := fun _ => ⟨HAL_OK, []⟩
    error := fun _ => 0 }

/-! ## Vocabulary of the theorems -/

/-- Status of a call that returned. -/
def statusOf (r : Except Stop (HAL_StatusTypeDef × State)) : Option HAL_StatusTypeDef :=
  match r with
  | Except.ok (status, _) => some status
  | Except.error _ => none

/-- Log of a call that returned, oldest event first; empty if it did not return. -/
def traceOf (r : Except Stop (HAL_StatusTypeDef × State)) : List Event :=
  match r with
  | Except.ok (_, s) => s.log.reverse
  | Except.error _ => []

/-- Text output. -/
def Event.isPrint : Event → Bool
  | Event.print _ => true
  | _ => false

/-- Driver transfer. -/
def Event.isXfer : Event → Bool
  | Event.xfer _ _ _ _ _ _ => true
  | _ => false

/-- Driver write transfer. -/
def Event.isWrite : Event → Bool
  | Event.xfer Dir.write _ _ _ _ _ => true
  | _ => false

/-- `s'` differs from `s` in text output at most: no source of the hardware has been
read, the interrupt flag, the card and the buffers are the same. -/
def Untouched (s s' : State) : Prop :=
  s'.nTick = s.nTick ∧ s'.nPoll = s.nPoll ∧ s'.nXfer = s.nXfer ∧ s'.nErr = s.nErr ∧
  s'.irq = s.irq ∧ s'.card = s.card ∧ s'.mem = s.mem ∧
  ∃ evs, s'.log = evs ++ s.log ∧ ∀ e ∈ evs, e.isPrint = true

/-- Messages of the error classifier `SD_ErrorHandler`. -/
def Msg.isDiag : Msg → Bool
  | Msg.diagBegin _ => true
  | Msg.diagErrorCode _ => true
  | Msg.diagHandleState => true
  | Msg.zeroCode => true
  | Msg.zeroCodeAdvice _ => true
  | Msg.diagEnd => true
  | Msg.errEntry _ _ _ => true
  | Msg.errCause _ => true
  | Msg.unknownBits _ => true
  | Msg.unknownBitsAdvice => true
  | Msg.noKnownError => true
  | _ => false

/-- Events of a readiness wait: reads of the card state and the time-out message. -/
def Event.isWait : Event → Bool
  | Event.poll _ => true
  | Event.print (Msg.waitReadyTimeout _) => true
  | _ => false

/-- Events of the error classifier: the read of the error mask and its messages. -/
def Event.isDiag : Event → Bool
  | Event.getError _ => true
  | Event.print m => m.isDiag
  | _ => false

/-- Between `s` and `s'` the interrupt flag, the card, the buffers and the number of
driver transfers are the same, and every event logged in between satisfies `p`. -/
structure Frame (p : Event → Bool) (s s' : State) : Prop where
  irq : s'.irq = s.irq
  card : s'.card = s.card
  mem : s'.mem = s.mem
  nXfer : s'.nXfer = s.nXfer
  log : ∃ evs, s'.log = evs ++ s.log ∧ ∀ e ∈ evs, p e = true

/-- Hardware on which every transfer returns `HAL_ERROR` and the error mask reads
`0x00000008` (`DTIMEOUT`); the tick and the card state are those of `calm`. -/
def faulty : Env :=
  { tick := fun k => k
    cardState := fun _ => 4
    xfer := fun _ => ⟨HAL_ERROR, []⟩
    error := fun _ => 8 }

/-- Hardware whose card is in the `Error` state; otherwise as `calm`. -/
def broken : Env :=
  { tick := fun k => k
    cardState := fun _ => 255
    xfer := fun _ => ⟨HAL_OK, []⟩
    error := fun _ => 0 }

/-- A named entry of the error classifier: the line that names an error bit, or the
line with its probable cause that follows it. -/
def Event.isEntry : Event → Bool
  | Event.print (Msg.errEntry _ _ _) => true
  | Event.print (Msg.errCause _) => true
  | _ => false

/-- Names of the error bits that a log (newest event first) reports, oldest first. -/
def entryNames : List Event → List String
  | [] => []
  | Event.print (Msg.errEntry name _ _) :: rest => entryNames rest ++ [name]
  | _ :: rest => entryNames rest

/-- Number of unknown-bit warnings in a log. -/
def unknownWarnings : List Event → Nat
  | [] => 0
  | Event.print (Msg.unknownBits _) :: rest => unknownWarnings rest + 1
  | _ :: rest => unknownWarnings rest

/-- Number of bits that are set among the low 32 bits of `x`. -/
def popcount32 (x : Nat) : Nat :=
  ((List.range 32).filter (fun k => x.testBit k)).length

/-- Events that can precede step 3 of `SD_MeasureTest`: anything but a driver write,
the announcement of step 3 and the announcement of the restore step. -/
def Event.isEarly : Event → Bool
  | Event.xfer Dir.write _ _ _ _ _ => false
  | Event.print Msg.prepareWrite => false
  | Event.print Msg.restoreBegin => false
  | _ => true

/-- Between `s` and `s'` the card is the same and every logged event is early. -/
def Early (s s' : State) : Prop :=
  s'.card = s.card ∧ ∃ evs, s'.log = evs ++ s.log ∧ ∀ e ∈ evs, e.isEarly = true

/-- Between `s` and `s'` the backup buffer is the same and the log has only grown. -/
def Late (s s' : State) : Prop :=
  s'.mem sd_backup_buf = s.mem sd_backup_buf ∧ ∃ evs, s'.log = evs ++ s.log

/-- The first `n` bytes of `buf` exist and are the values `f 0`, ..., `f (n - 1)`. -/
def Holds (buf : List Nat) (n : Nat) (f : Nat → Nat) : Prop :=
  n ≤ buf.length ∧ ∀ i < n, buf.getD i 0 = f i

/-- State in which a block of statements of `SD_MeasureTest` ends. -/
def Flow.state {α : Type} : Flow α → State
  | Flow.next _ s => s
  | Flow.ret _ s => s
  | Flow.gotoRestore _ s => s

/-- The block ended with `return status;`. -/
def Flow.isRet {α : Type} : Flow α → Bool
  | Flow.ret _ _ => true
  | _ => false

/-- The block ended with `goto restore_data;`. -/
def Flow.isGoto {α : Type} : Flow α → Bool
  | Flow.gotoRestore _ _ => true
  | _ => false

/-- The status with which the block returned or jumped. -/
def Flow.leftWith {α : Type} : Flow α → Option HAL_StatusTypeDef
  | Flow.next _ _ => none
  | Flow.ret status _ => some status
  | Flow.gotoRestore status _ => some status

/-- What holds when `SD_MeasureTest`, started in `s`, is at the label `restore_data`
in state `sr`: the block count is between 1 and 256, step 3 has been announced since
`s`, and the backup buffer holds, byte by byte, what the fourth backup read delivered
plus `0x0A`. -/
structure AtRestore (c : Config) (E : Env) (s sr : State) : Prop where
  blocks_pos : c.SD_TEST_BLOCKS ≠ 0
  blocks_le : c.SD_TEST_BLOCKS ≤ 256
  log : ∃ evs, sr.log = evs ++ s.log ∧ Event.print Msg.prepareWrite ∈ evs
  data : Holds (sr.mem sd_backup_buf) (c.SD_TEST_BLOCKS * SD_BLOCK_SIZE)
    (fun i => add8 ((patch (E.xfer (s.nXfer + 3)).noise
      (cardRead s.card c.SD_TEST_BLOCK_START c.SD_TEST_BLOCKS)).getD i 0) 0x0A)

/-- Events other than a driver transfer and the announcement of the restore step. -/
def Event.isQuiet : Event → Bool
  | Event.xfer _ _ _ _ _ _ => false
  | Event.print Msg.restoreBegin => false
  | _ => true

/-- The driver write of the restore step succeeded: among the events logged after the
last announcement of the restore step there is the write of the test range from the
backup buffer with the answer `HAL_OK` and a clean transport. -/
def restoreWriteSucceeded (c : Config) (log : List Event) : Prop :=
  Event.xfer Dir.write sd_backup_buf c.SD_TEST_BLOCK_START c.SD_TEST_BLOCKS c.SD_TIMEOUT_MS
      ⟨HAL_OK, []⟩ ∈
    log.takeWhile (fun e => e != Event.print Msg.restoreBegin)

instance (c : Config) (log : List Event) : Decidable (restoreWriteSucceeded c log) := by
  unfold restoreWriteSucceeded; infer_instance

/-- Hardware as `calm`, except that the fifth transfer, the first write of the test
data, returns `HAL_ERROR`. -/
def writeFault : Env :=
  { tick := fun k => k
    cardState := fun _ => 4
    xfer := fun k => if k = 4 then ⟨HAL_ERROR, []⟩ else ⟨HAL_OK, []⟩
    error := fun _ => 8 }

/-- Left side of the test of the `while` loop of `SD_WaitReady` at its evaluation
number `k` (the first one is number 0) in a call that starts in `s`: the tick read for
that test minus the tick read at the start of the call, on `uint32_t`. -/
def elapsedAt (E : Env) (s : State) (k : Nat) : Nat :=
  sub32 (E.tick (s.nTick + 1 + k) % U32) (E.tick s.nTick % U32)

/-- Hardware whose millisecond counter stands at `0xFFFFFFFE` at the first read and
advances by one per read, so that the 32-bit tick overflows to 0 at the third read;
the card stays in the programming state. -/
def wrapping : Env :=
  { tick := fun k => 4294967294 + k
    cardState := fun _ => 7
    xfer := fun _ => ⟨HAL_OK, []⟩
    error := fun _ => 0 }


/-- Value, in tenths of its unit, of a figure that is printed as `int.dec`, with one
decimal digit. -/
def tenths (int dec : Nat) : Nat := 10 * int + dec

/-- The board `stm32` with the largest test range, 256 blocks (131072 bytes). -/
def stm32Max : Config := { stm32 with SD_TEST_BLOCKS := 256 }


/-- Hardware on which nothing fails and the card is ready whenever it is asked: the
card is always in the transfer state, every transfer is clean and returns `HAL_OK`,
and between two consecutive reads of the tick less time passes than the timeout of a
readiness wait (`SD_TIMEOUT_MS`, and `SD_TIMEOUT_MS * 15U`). -/
structure Smooth (c : Config) (E : Env) : Prop where
  card : ∀ k, E.cardState k = c.HAL_SD_CARD_TRANSFER
  xfer : ∀ k, E.xfer k = ⟨HAL_OK, []⟩
  tick : ∀ k, sub32 (E.tick (k + 1) % U32) (E.tick k % U32) < c.SD_TIMEOUT_MS
  tick15 : ∀ k, sub32 (E.tick (k + 1) % U32) (E.tick k % U32) < mul32 c.SD_TIMEOUT_MS 15

/-- The test range of the card holds, byte by byte, the content of the backup buffer. -/
def Synced (c : Config) (s : State) : Prop :=
  ∀ i < c.SD_TEST_BLOCKS * SD_BLOCK_SIZE,
    s.card (c.SD_TEST_BLOCK_START * SD_BLOCK_SIZE + i) = (s.mem sd_backup_buf).getD i 0

/-- Hardware as `calm`, with a tick that still reads 0 at the twelfth read, the one
that ends the backup, and is the number of the read from then on: the four reads of
the backup take less than a millisecond. -/
def quick : Env :=
  { tick := fun k => if k < 12 then 0 else k
    cardState := fun _ => 4
    xfer := fun _ => ⟨HAL_OK, []⟩
    error := fun _ => 0 }


/-! # Theorems -/

/-! ## Frames -/

theorem Frame.refl (p : Event → Bool) (s : State) : Frame p s s :=
  ⟨rfl, rfl, rfl, rfl, [], rfl, by simp⟩

theorem Frame.trans {p : Event → Bool} {s1 s2 s3 : State} (h12 : Frame p s1 s2)
    (h23 : Frame p s2 s3) : Frame p s1 s3 := by
  obtain ⟨a1, a2, a3, a4, e1, l1, p1⟩ := h12
  obtain ⟨b1, b2, b3, b4, e2, l2, p2⟩ := h23
  refine ⟨b1.trans a1, b2.trans a2, b3.trans a3, b4.trans a4, e2 ++ e1, ?_, ?_⟩
  · rw [l2, l1, List.append_assoc]
  · intro e he
    rcases List.mem_append.mp he with h | h
    · exact p2 e h
    · exact p1 e h

theorem Frame.mono {p q : Event → Bool} {s s' : State} (hpq : ∀ e, p e = true → q e = true)
    (h : Frame p s s') : Frame q s s' := by
  obtain ⟨a1, a2, a3, a4, evs, l1, p1⟩ := h
  exact ⟨a1, a2, a3, a4, evs, l1, fun e he => hpq e (p1 e he)⟩

theorem Frame.tick (p : Event → Bool) (E : Env) (s : State) :
    Frame p s (HAL_GetTick E s).2 :=
  ⟨rfl, rfl, rfl, rfl, [], rfl, by simp⟩

theorem Frame.event {p : Event → Bool} {s s' : State} (e : Event) (hp : p e = true)
    (h1 : s'.irq = s.irq) (h2 : s'.card = s.card) (h3 : s'.mem = s.mem)
    (h4 : s'.nXfer = s.nXfer) (h5 : s'.log = e :: s.log) : Frame p s s' :=
  ⟨h1, h2, h3, h4, [e], h5, by simpa using hp⟩

theorem Frame.print {p : Event → Bool} (m : Msg) (s : State)
    (hp : p (Event.print m) = true) : Frame p s (printf m s) :=
  Frame.event _ hp rfl rfl rfl rfl rfl

theorem Frame.poll {p : Event → Bool} (E : Env) (s : State)
    (hp : ∀ v, p (Event.poll v) = true) : Frame p s (HAL_SD_GetCardState E s).2 :=
  Frame.event _ (hp _) rfl rfl rfl rfl rfl

/-! ## Readiness wait -/

theorem waitLoop_frame (c : Config) (E : Env) (T t0 : Nat) :
    ∀ (fuel : Nat) (s : State) (st : HAL_StatusTypeDef) (s' : State),
      SD_WaitReady.loop c E T t0 fuel s = Except.ok (st, s') →
      Frame Event.isWait s s' ∧ (st = HAL_OK ∨ st = HAL_TIMEOUT) := by
  intro fuel
  induction fuel with
  | zero =>
    intro s st s' h
    simp only [SD_WaitReady.loop] at h
    split at h
    · cases h
    · cases h
      exact ⟨Frame.tick _ E s, Or.inr rfl⟩
  | succ fuel ih =>
    intro s st s' h
    simp only [SD_WaitReady.loop] at h
    split at h
    · split at h
      · cases h
        exact ⟨(Frame.tick _ E s).trans (Frame.poll E _ (fun _ => rfl)), Or.inl rfl⟩
      · obtain ⟨hf, hs⟩ := ih _ _ _ h
        exact ⟨((Frame.tick _ E s).trans (Frame.poll E _ (fun _ => rfl))).trans hf, hs⟩
    · cases h
      exact ⟨Frame.tick _ E s, Or.inr rfl⟩

theorem waitReady_frame (c : Config) (E : Env) (fuel T : Nat) (s : State)
    (st : HAL_StatusTypeDef) (s' : State)
    (h : SD_WaitReady c E fuel T s = Except.ok (st, s')) :
    Frame Event.isWait s s' ∧ (st = HAL_OK ∨ st = HAL_TIMEOUT) := by
  unfold SD_WaitReady at h
  simp only at h
  split at h
  · cases h
  · rename_i st1 s1 hl
    obtain ⟨hf, hs⟩ := waitLoop_frame c E T _ fuel _ _ _ hl
    split at h
    · cases h
      exact ⟨((Frame.tick _ E s).trans hf).trans (Frame.print _ _ rfl), hs⟩
    · cases h
      exact ⟨(Frame.tick _ E s).trans hf, hs⟩

/-! ## Error classifier -/

theorem Frame.print_of {p : Event → Bool} {s s1 : State} (m : Msg) (h : Frame p s s1)
    (hp : p (Event.print m) = true) : Frame p s (printf m s1) :=
  h.trans (Frame.print m s1 hp)

theorem entryNames_append (a b : List Event) :
    entryNames (a ++ b) = entryNames b ++ entryNames a := by
  induction a with
  | nil => simp [entryNames]
  | cons e rest ih =>
    cases e with
    | print m => cases m <;> simp [entryNames, ih]
    | _ => simp [entryNames, ih]

theorem unknownWarnings_append (a b : List Event) :
    unknownWarnings (a ++ b) = unknownWarnings a + unknownWarnings b := by
  induction a with
  | nil => simp [unknownWarnings]
  | cons e rest ih =>
    cases e with
    | print m =>
      cases m with
      | unknownBits bits =>
        show unknownWarnings (rest ++ b) + 1 = unknownWarnings rest + 1 + unknownWarnings b
        rw [ih]; omega
      | _ => simp [unknownWarnings, ih]
    | _ => simp [unknownWarnings, ih]

theorem isEntry_cases (ev : Event) (h : ev.isEntry = true) :
    (∃ a b c, ev = Event.print (Msg.errEntry a b c)) ∨
    (∃ a, ev = Event.print (Msg.errCause a)) := by
  cases ev with
  | print m =>
    cases m with
    | errEntry a b c => exact Or.inl ⟨a, b, c, rfl⟩
    | errCause a => exact Or.inr ⟨a, rfl⟩
    | _ => simp [Event.isEntry] at h
  | _ => simp [Event.isEntry] at h

theorem isEntry_facts (evs : List Event) (h : ∀ ev ∈ evs, ev.isEntry = true) :
    unknownWarnings evs = 0 ∧ Event.print Msg.zeroCode ∉ evs ∧
    (∀ ev ∈ evs, ev.isDiag = true ∧ ev.isPrint = true) := by
  refine ⟨?_, ?_, ?_⟩
  · induction evs with
    | nil => rfl
    | cons e rest ih =>
      have hr := ih (fun ev hev => h ev (List.mem_cons_of_mem _ hev))
      rcases isEntry_cases e (h e (List.mem_cons_self _ _)) with ⟨a, b, c, he⟩ | ⟨a, he⟩ <;>
        subst he <;> simpa [unknownWarnings] using hr
  · intro hz
    rcases isEntry_cases _ (h _ hz) with ⟨a, b, c, he⟩ | ⟨a, he⟩ <;> cases he
  · intro ev hev
    rcases isEntry_cases _ (h _ hev) with ⟨a, b, c, he⟩ | ⟨a, he⟩ <;> subst he <;>
      exact ⟨rfl, rfl⟩

/-- The first loop of the classifier prints one entry per row whose bit is set, in
the order of the table, and nothing else. -/
theorem scan_spec (e : Nat) :
    ∀ (rows : List ErrRow) (f : Nat) (s : State), ∃ evs,
      SD_ErrorHandler.scan e rows (f, s) =
        (if rows.filter (fun r => decide (e &&& r.bit ≠ 0)) = [] then f else 1,
         { s with log := evs ++ s.log }) ∧
      (∀ ev ∈ evs, ev.isEntry = true) ∧
      entryNames evs = (rows.filter (fun r => decide (e &&& r.bit ≠ 0))).map ErrRow.name := by
  intro rows
  induction rows with
  | nil => intro f s; exact ⟨[], by simp [SD_ErrorHandler.scan], by simp, by simp [entryNames]⟩
  | cons row rest ih =>
    intro f s
    by_cases h : e &&& row.bit ≠ 0
    · obtain ⟨evs, heq, hall, hnames⟩ := ih 1 (printf (Msg.errCause row.root_cause)
        (printf (Msg.errEntry row.name row.bit row.meaning) s))
      refine ⟨evs ++ [Event.print (Msg.errCause row.root_cause),
        Event.print (Msg.errEntry row.name row.bit row.meaning)], ?_, ?_, ?_⟩
      · simp only [SD_ErrorHandler.scan, if_pos h, heq]
        simp [List.filter_cons, h, printf]
      · intro ev hev
        rcases List.mem_append.mp hev with h1 | h1
        · exact hall ev h1
        · simp at h1
          rcases h1 with h1 | h1 <;> subst h1 <;> rfl
      · rw [entryNames_append, hnames]
        simp [List.filter_cons, h, entryNames]
    · obtain ⟨evs, heq, hall, hnames⟩ := ih f s
      refine ⟨evs, ?_, hall, ?_⟩
      · simp only [SD_ErrorHandler.scan, if_neg h, heq]
        simp [List.filter_cons, h]
      · rw [hnames]
        simp [List.filter_cons, h]

theorem known_mask_value : SD_ErrorHandler.known_mask err_tbl 0 = 0x000FFCFF := by
  decide

/-- Everything `SD_ErrorHandler` does: it reads the error mask once and prints.  For
the mask `0` it prints the zero-code advisory and no entry; for another mask it prints
the entries of the rows whose bit is set, and one unknown-bit warning exactly when a
bit outside the table is set. -/
theorem errorHandler_spec (E : Env) (op : String) (s : State) :
    ∃ evs, SD_ErrorHandler E op s =
        { s with nErr := s.nErr + 1,
                 log := evs ++ Event.getError (E.error s.nErr % U32) :: s.log } ∧
      (∀ ev ∈ evs, ev.isDiag = true ∧ ev.isPrint = true) ∧
      (E.error s.nErr % U32 = 0 →
        Event.print Msg.zeroCode ∈ evs ∧ entryNames evs = [] ∧ unknownWarnings evs = 0) ∧
      (E.error s.nErr % U32 ≠ 0 →
        Event.print Msg.zeroCode ∉ evs ∧
        entryNames evs = (err_tbl.filter
          (fun r => decide (E.error s.nErr % U32 &&& r.bit ≠ 0))).map ErrRow.name ∧
        unknownWarnings evs =
          if E.error s.nErr % U32 &&& not32 0x000FFCFF ≠ 0 then 1 else 0) := by
  by_cases h0 : E.error s.nErr % U32 = 0
  · refine ⟨[Event.print Msg.diagEnd, Event.print (Msg.zeroCodeAdvice 3),
      Event.print (Msg.zeroCodeAdvice 2), Event.print (Msg.zeroCodeAdvice 1),
      Event.print (Msg.zeroCodeAdvice 0), Event.print Msg.zeroCode,
      Event.print Msg.diagHandleState, Event.print (Msg.diagErrorCode 0),
      Event.print (Msg.diagBegin op)], ?_, ?_, ?_, ?_⟩
    · simp [SD_ErrorHandler, HAL_SD_GetError, h0, printf]
    · intro ev hev
      simp at hev
      rcases hev with h | h | h | h | h | h | h | h | h <;> subst h <;> exact ⟨rfl, rfl⟩
    · intro _
      simp [entryNames, unknownWarnings]
    · intro h; exact absurd h0 h
  · obtain ⟨sevs, heq, hall, hnames⟩ := scan_spec (E.error s.nErr % U32) err_tbl 0
      (printf Msg.diagHandleState (printf (Msg.diagErrorCode (E.error s.nErr % U32))
        (printf (Msg.diagBegin op) (HAL_SD_GetError E s).2)))
    obtain ⟨hu, hz, hd⟩ := isEntry_facts sevs hall
    have hm := known_mask_value
    have hpr : ∀ (m : Msg), m.isDiag = true →
        (Event.print m).isDiag = true ∧ (Event.print m).isPrint = true :=
      fun m hm => ⟨hm, rfl⟩
    refine ⟨Event.print Msg.diagEnd ::
      ((if err_tbl.filter (fun r => decide (E.error s.nErr % U32 &&& r.bit ≠ 0)) = []
          then [Event.print Msg.noKnownError] else []) ++
       ((if E.error s.nErr % U32 &&& not32 0x000FFCFF ≠ 0 then
          [Event.print Msg.unknownBitsAdvice,
           Event.print (Msg.unknownBits (E.error s.nErr % U32 &&& not32 0x000FFCFF))]
         else []) ++
        (sevs ++ [Event.print Msg.diagHandleState,
          Event.print (Msg.diagErrorCode (E.error s.nErr % U32)),
          Event.print (Msg.diagBegin op)]))), ?_, ?_, ?_, ?_⟩
    · unfold SD_ErrorHandler
      simp only [HAL_SD_GetError] at heq ⊢
      rw [if_neg h0, heq, hm]
      generalize err_tbl.filter (fun r => decide (E.error s.nErr % U32 &&& r.bit ≠ 0)) = fl
      by_cases hun : E.error s.nErr % U32 &&& not32 0x000FFCFF ≠ 0 <;>
        rcases fl with _ | ⟨r, rs⟩ <;> simp [hun, printf]
    · intro ev hev
      simp only [List.mem_cons, List.mem_append] at hev
      rcases hev with h | h | h | h | h
      · subst h; exact ⟨rfl, rfl⟩
      · split at h
        · simp at h; subst h; exact ⟨rfl, rfl⟩
        · simp at h
      · split at h
        · simp at h
          rcases h with h | h <;> subst h <;> exact ⟨rfl, rfl⟩
        · simp at h
      · exact hd ev h
      · simp at h
        rcases h with h | h | h <;> subst h <;> exact ⟨rfl, rfl⟩
    · intro h; exact absurd h h0
    · intro _
      refine ⟨?_, ?_, ?_⟩
      · intro hmem
        simp only [List.mem_cons, List.mem_append] at hmem
        rcases hmem with h | h | h | h | h
        · cases h
        · split at h <;> simp at h
        · split at h <;> simp at h
        · exact hz h
        · simp at h
      · rw [← hnames]
        simp only [entryNames, entryNames_append]
        split <;> split <;> simp [entryNames]
      · simp only [unknownWarnings, unknownWarnings_append, hu]
        split <;> split <;> simp [unknownWarnings]

theorem and_two_pow_ne_zero (e k : Nat) : e &&& 2 ^ k ≠ 0 ↔ e.testBit k = true := by
  rw [Nat.and_two_pow]
  cases h : e.testBit k
  · simp
  · simp

theorem entry_count (e : Nat) :
    (err_tbl.filter (fun r => decide (e &&& r.bit ≠ 0))).length =
      popcount32 (e &&& 0x000FFCFF) := by
  have h1 : (err_tbl.filter (fun r => decide (e &&& r.bit ≠ 0))).length =
      ((err_tbl.map ErrRow.bit).filter (fun b => decide (e &&& b ≠ 0))).length := by
    rw [List.filter_map, List.length_map]
    rfl
  have h2 : err_tbl.map ErrRow.bit =
      [0, 1, 2, 3, 4, 5, 6, 7, 10, 11, 12, 13, 14, 15, 16, 17, 18, 19].map (fun k => 2 ^ k) := by
    decide
  have h3 : (List.range 32).filter (fun k => Nat.testBit 0x000FFCFF k) =
      [0, 1, 2, 3, 4, 5, 6, 7, 10, 11, 12, 13, 14, 15, 16, 17, 18, 19] := by
    decide
  rw [h1, h2, List.filter_map, List.length_map]
  unfold popcount32
  have h4 : (List.range 32).filter (fun k => (e &&& 0x000FFCFF).testBit k) =
      ((List.range 32).filter (fun k => Nat.testBit 0x000FFCFF k)).filter
        (fun k => e.testBit k) := by
    rw [List.filter_filter]
    apply List.filter_congr
    intro k _
    rw [Nat.testBit_and]
  rw [h4, h3]
  congr 1
  apply List.filter_congr
  intro k _
  simp only [Function.comp]
  by_cases hk : e.testBit k = true
  · simp [hk, (and_two_pow_ne_zero e k).mpr hk]
  · have := (and_two_pow_ne_zero e k).not.mpr hk
    simp only [ne_eq, not_not] at this
    simp [hk, this]

/-- C9: `SD_ErrorHandler` reads the 32-bit error mask `e` once.  For `e = 0` it prints
the zero-code advisory, no named entry and no unknown-bit warning.  For `e ≠ 0` it
prints the named entries of exactly the rows of the table whose bit is set in `e`, in
table order, which are `popcount (e AND 0x000FFCFF)` entries, and one unknown-bit
warning if and only if `e AND NOT 0x000FFCFF` is not zero.  The table has 18 rows,
each a single bit, all different.  The mask `0x00000005` gives the entries `CCRC_FAIL`
and `CTIMEOUT` and no warning; `0x80000000` gives no entry and one warning. -/
theorem C9_error_classifier_report (E : Env) (op : String) (s : State) :
    ∃ evs, (SD_ErrorHandler E op s).log = evs ++ s.log ∧
      (E.error s.nErr % U32 = 0 →
        Event.print Msg.zeroCode ∈ evs ∧ entryNames evs = [] ∧ unknownWarnings evs = 0) ∧
      (E.error s.nErr % U32 ≠ 0 →
        Event.print Msg.zeroCode ∉ evs ∧
        entryNames evs = (err_tbl.filter
          (fun r => decide (E.error s.nErr % U32 &&& r.bit ≠ 0))).map ErrRow.name ∧
        (entryNames evs).length = popcount32 (E.error s.nErr % U32 &&& 0x000FFCFF) ∧
        unknownWarnings evs ≤ 1 ∧
        (unknownWarnings evs = 1 ↔ E.error s.nErr % U32 &&& not32 0x000FFCFF ≠ 0)) ∧
      (E.error s.nErr % U32 = 0x00000005 →
        entryNames evs = ["CCRC_FAIL", "CTIMEOUT"] ∧ unknownWarnings evs = 0) ∧
      (E.error s.nErr % U32 = 0x80000000 →
        entryNames evs = [] ∧ unknownWarnings evs = 1) ∧
      err_tbl.length = 18 ∧ (err_tbl.map ErrRow.bit).Nodup ∧
      (∀ r ∈ err_tbl, ∃ k, k < 32 ∧ r.bit = 2 ^ k) := by
  obtain ⟨evs, heq, _, hzero, hnz⟩ := errorHandler_spec E op s
  refine ⟨evs ++ [Event.getError (E.error s.nErr % U32)], ?_, ?_, ?_, ?_, ?_, ?_, ?_, ?_⟩
  · rw [heq]; simp
  · intro h0
    obtain ⟨h1, h2, h3⟩ := hzero h0
    refine ⟨List.mem_append_left _ h1, ?_, ?_⟩
    · rw [entryNames_append, h2]; rfl
    · rw [unknownWarnings_append, h3]; rfl
  · intro h0
    obtain ⟨h1, h2, h3⟩ := hnz h0
    have hn : entryNames (evs ++ [Event.getError (E.error s.nErr % U32)]) = entryNames evs := by
      rw [entryNames_append]; rfl
    have hu : unknownWarnings (evs ++ [Event.getError (E.error s.nErr % U32)]) =
        unknownWarnings evs := by
      rw [unknownWarnings_append]; rfl
    refine ⟨?_, ?_, ?_, ?_, ?_⟩
    · intro hm
      rcases List.mem_append.mp hm with h | h
      · exact h1 h
      · simp at h
    · rw [hn, h2]
    · rw [hn, h2, List.length_map, entry_count]
    · rw [hu, h3]; split <;> simp
    · rw [hu, h3]; split <;> simp_all
  · intro h5
    have h0 : E.error s.nErr % U32 ≠ 0 := by rw [h5]; decide
    obtain ⟨h1, h2, h3⟩ := hnz h0
    rw [entryNames_append, unknownWarnings_append, h2, h3, h5]
    exact ⟨by decide, by decide⟩
  · intro h8
    have h0 : E.error s.nErr % U32 ≠ 0 := by rw [h8]; decide
    obtain ⟨h1, h2, h3⟩ := hnz h0
    rw [entryNames_append, unknownWarnings_append, h2, h3, h8]
    exact ⟨by decide, by decide⟩
  · rfl
  · decide
  · decide

/-! ## Block transfer engine -/

theorem filter_xfer_nil {p : Event → Bool} (evs : List Event)
    (hp : ∀ e ∈ evs, p e = true) (hq : ∀ e, p e = true → e.isXfer = false) :
    evs.filter Event.isXfer = [] := by
  rw [List.filter_eq_nil_iff]
  intro e he
  simp [hq e (hp e he)]

theorem isWait_not_xfer (e : Event) (h : e.isWait = true) : e.isXfer = false := by
  cases e <;> simp_all [Event.isWait, Event.isXfer]

theorem isDiag_not_xfer (e : Event) (h : e.isDiag = true) : e.isXfer = false := by
  cases e <;> simp_all [Event.isDiag, Event.isXfer]

/-- State in which `SD_WriteBlocks` returns once the readiness wait has returned
`HAL_OK` in `s1`. -/
theorem writeBlocks_of_wait_ok (c : Config) (E : Env) (fuel buf blk n T : Nat)
    (s s1 : State) (hn : n ≠ 0)
    (hw : SD_WaitReady c E fuel T s = Except.ok (HAL_OK, s1)) :
    SD_WriteBlocks c E fuel (some buf) blk n T s =
      Except.ok ((E.xfer s1.nXfer).status,
        __enable_irq
          (if (E.xfer s1.nXfer).status ≠ HAL_OK ∧ c.DEBUG = true then
            SD_ErrorHandler E "写入"
              (printf (Msg.writeBlocksFail (E.xfer s1.nXfer).status)
                (HAL_SD_WriteBlocks E buf blk n T (__disable_irq s1)).2)
           else (HAL_SD_WriteBlocks E buf blk n T (__disable_irq s1)).2)) := by
  simp only [SD_WriteBlocks, hn, hw, if_false, ne_eq, not_true_eq_false]
  rfl

/-- State in which `SD_ReadBlocks` returns once the readiness wait has returned
`HAL_OK` in `s1`. -/
theorem readBlocks_of_wait_ok (c : Config) (E : Env) (fuel buf blk n T : Nat)
    (s s1 : State) (hn : n ≠ 0)
    (hw : SD_WaitReady c E fuel T s = Except.ok (HAL_OK, s1)) :
    SD_ReadBlocks c E fuel (some buf) blk n T s =
      Except.ok ((E.xfer s1.nXfer).status,
        __enable_irq
          (if (E.xfer s1.nXfer).status ≠ HAL_OK ∧ c.DEBUG = true then
            SD_ErrorHandler E "读取"
              (printf (Msg.readBlocksFail (E.xfer s1.nXfer).status)
                (HAL_SD_ReadBlocks E buf blk n T (__disable_irq s1)).2)
           else (HAL_SD_ReadBlocks E buf blk n T (__disable_irq s1)).2)) := by
  simp only [SD_ReadBlocks, hn, hw, if_false, ne_eq, not_true_eq_false]
  rfl

theorem writeBlocks_of_wait_fail (c : Config) (E : Env) (fuel buf blk n T : Nat)
    (s s1 : State) (st : HAL_StatusTypeDef) (hn : n ≠ 0) (hst : st ≠ HAL_OK)
    (hw : SD_WaitReady c E fuel T s = Except.ok (st, s1)) :
    SD_WriteBlocks c E fuel (some buf) blk n T s = Except.ok (st, s1) := by
  simp [SD_WriteBlocks, hn, hw, hst]

theorem readBlocks_of_wait_fail (c : Config) (E : Env) (fuel buf blk n T : Nat)
    (s s1 : State) (st : HAL_StatusTypeDef) (hn : n ≠ 0) (hst : st ≠ HAL_OK)
    (hw : SD_WaitReady c E fuel T s = Except.ok (st, s1)) :
    SD_ReadBlocks c E fuel (some buf) blk n T s = Except.ok (st, s1) := by
  simp [SD_ReadBlocks, hn, hw, hst]

/-- C1: for a non-null buffer and a block count other than zero, once the readiness
wait has returned `HAL_OK`, `SD_WriteBlocks` and `SD_ReadBlocks` return the status of
the driver transfer, whatever it is, in a state in which interrupts are enabled. -/
theorem C1_interrupts_enabled_after_transfer (c : Config) (E : Env)
    (fuel buf blk n T : Nat) (s s1 : State) (hn : n ≠ 0)
    (hw : SD_WaitReady c E fuel T s = Except.ok (HAL_OK, s1)) :
    (∃ s', SD_WriteBlocks c E fuel (some buf) blk n T s =
        Except.ok ((E.xfer s1.nXfer).status, s') ∧ s'.irq = true) ∧
    (∃ s', SD_ReadBlocks c E fuel (some buf) blk n T s =
        Except.ok ((E.xfer s1.nXfer).status, s') ∧ s'.irq = true) :=
  ⟨⟨_, writeBlocks_of_wait_ok c E fuel buf blk n T s s1 hn hw, rfl⟩,
   ⟨_, readBlocks_of_wait_ok c E fuel buf blk n T s s1 hn hw, rfl⟩⟩

/-- Witness of C1: a write of one block on hardware whose transfers fail. -/
theorem C1_interrupts_enabled_after_transfer_witness :
    (1 ≠ 0) ∧
    SD_WaitReady stm32 faulty 1 1000 boot =
      Except.ok (HAL_OK, { boot with nTick := 2, nPoll := 1, log := [Event.poll 4] }) ∧
    (∃ s', SD_WriteBlocks stm32 faulty 1 (some sd_backup_buf) 8 1 1000 boot =
        Except.ok (HAL_ERROR, s') ∧ s'.irq = true) ∧
    (∃ s', SD_ReadBlocks stm32 faulty 1 (some sd_backup_buf) 8 1 1000 boot =
        Except.ok (HAL_ERROR, s') ∧ s'.irq = true) :=
  ⟨by decide, rfl,
   C1_interrupts_enabled_after_transfer stm32 faulty 1 sd_backup_buf 8 1 1000 boot
     { boot with nTick := 2, nPoll := 1, log := [Event.poll 4] } (by decide) rfl⟩

theorem errorHandler_frame (E : Env) (op : String) (s : State) :
    Frame Event.isDiag s (SD_ErrorHandler E op s) := by
  obtain ⟨evs, heq, hall, _, _⟩ := errorHandler_spec E op s
  rw [heq]
  refine ⟨rfl, rfl, rfl, rfl, evs ++ [Event.getError (E.error s.nErr % U32)], by simp, ?_⟩
  intro e he
  rcases List.mem_append.mp he with h | h
  · exact (hall e h).1
  · simp at h; subst h; rfl

/-- Log of the part of `SD_WriteBlocks` and `SD_ReadBlocks` that follows the driver
transfer `x`: the diagnosis, if `P` holds, and the re-enabling of interrupts. -/
theorem log_after_transfer (E : Env) (op : String) (m : Msg)
    (x : Event) (P : Prop) [Decidable P] (s sx : State)
    (hx : sx.log = x :: Event.irqOff :: s.log) :
    ∃ diag, (__enable_irq (if P then SD_ErrorHandler E op (printf m sx) else sx)).log =
        Event.irqOn :: (diag ++ x :: Event.irqOff :: s.log) ∧
      (∀ e ∈ diag, e = Event.print m ∨ e.isDiag = true) ∧
      (P → ∃ v, Event.getError v ∈ diag) ∧ (¬ P → diag = []) := by
  by_cases hP : P
  · obtain ⟨evs, heq, hall, _, _⟩ := errorHandler_spec E op (printf m sx)
    refine ⟨evs ++ [Event.getError (E.error (printf m sx).nErr % U32), Event.print m],
      ?_, ?_, ?_, ?_⟩
    · rw [if_pos hP, heq]
      simp [__enable_irq, printf, hx]
    · intro e he
      rcases List.mem_append.mp he with h | h
      · exact Or.inr (hall e h).1
      · simp at h
        rcases h with h | h
        · subst h; exact Or.inr rfl
        · exact Or.inl h
    · intro _
      exact ⟨_, List.mem_append_right _ (List.mem_cons_self _ _)⟩
    · intro h; exact absurd hP h
  · refine ⟨[], ?_, by simp, fun h => absurd h hP, fun _ => rfl⟩
    rw [if_neg hP]
    simp [__enable_irq, hx]

theorem filter_xfer_diag (m : Msg) (diag : List Event)
    (h : ∀ e ∈ diag, e = Event.print m ∨ e.isDiag = true) :
    diag.filter Event.isXfer = [] := by
  rw [List.filter_eq_nil_iff]
  intro e he
  rcases h e he with h1 | h1
  · subst h1; simp [Event.isXfer]
  · simp [isDiag_not_xfer e h1]

/-- C2: for a non-null buffer and a block count other than zero, when the readiness
wait returns `HAL_OK` the driver transfer of the same direction is called exactly once,
with the same buffer, start block, block count and timeout, and its status is
returned as it is; when the readiness wait returns another status, that status is
`HAL_TIMEOUT`, it is returned, and the driver transfer is not called. -/
theorem C2_driver_status_propagated (c : Config) (E : Env) (fuel buf blk n T : Nat)
    (s s1 : State) (st : HAL_StatusTypeDef) (hn : n ≠ 0)
    (hw : SD_WaitReady c E fuel T s = Except.ok (st, s1)) :
    (st = HAL_OK →
      (∃ s' evs, SD_WriteBlocks c E fuel (some buf) blk n T s =
          Except.ok ((E.xfer s.nXfer).status, s') ∧
        s'.nXfer = s.nXfer + 1 ∧ s'.log = evs ++ s.log ∧
        evs.filter Event.isXfer = [Event.xfer Dir.write buf blk n T (E.xfer s.nXfer)]) ∧
      (∃ s' evs, SD_ReadBlocks c E fuel (some buf) blk n T s =
          Except.ok ((E.xfer s.nXfer).status, s') ∧
        s'.nXfer = s.nXfer + 1 ∧ s'.log = evs ++ s.log ∧
        evs.filter Event.isXfer = [Event.xfer Dir.read buf blk n T (E.xfer s.nXfer)])) ∧
    (st ≠ HAL_OK →
      st = HAL_TIMEOUT ∧
      SD_WriteBlocks c E fuel (some buf) blk n T s = Except.ok (st, s1) ∧
      SD_ReadBlocks c E fuel (some buf) blk n T s = Except.ok (st, s1) ∧
      s1.nXfer = s.nXfer ∧
      ∃ evs, s1.log = evs ++ s.log ∧ evs.filter Event.isXfer = []) := by
  obtain ⟨⟨_, _, _, hx, wevs, hwl, hwp⟩, hst⟩ := waitReady_frame c E fuel T s st s1 hw
  have hwf := filter_xfer_nil wevs hwp isWait_not_xfer
  constructor
  · intro h
    subst h
    constructor
    · obtain ⟨diag, hl, hd, _, _⟩ := log_after_transfer E "写入"
        (Msg.writeBlocksFail (E.xfer s1.nXfer).status)
        (Event.xfer Dir.write buf blk n T (E.xfer s1.nXfer))
        ((E.xfer s1.nXfer).status ≠ HAL_OK ∧ c.DEBUG = true) s1
        (HAL_SD_WriteBlocks E buf blk n T (__disable_irq s1)).2 rfl
      rw [← hx]
      refine ⟨_, Event.irqOn :: (diag ++ Event.xfer Dir.write buf blk n T (E.xfer s1.nXfer)
        :: Event.irqOff :: wevs), writeBlocks_of_wait_ok c E fuel buf blk n T s s1 hn hw, ?_, ?_, ?_⟩
      · have := (errorHandler_frame E "写入" (printf (Msg.writeBlocksFail
          (E.xfer s1.nXfer).status) (HAL_SD_WriteBlocks E buf blk n T (__disable_irq s1)).2)).nXfer
        split
        · simp only [__enable_irq, this]; rfl
        · rfl
      · rw [hl, hwl]; simp
      · simp [List.filter_cons, List.filter_append, Event.isXfer, filter_xfer_diag _ diag hd,
          hwf]
    · obtain ⟨diag, hl, hd, _, _⟩ := log_after_transfer E "读取"
        (Msg.readBlocksFail (E.xfer s1.nXfer).status)
        (Event.xfer Dir.read buf blk n T (E.xfer s1.nXfer))
        ((E.xfer s1.nXfer).status ≠ HAL_OK ∧ c.DEBUG = true) s1
        (HAL_SD_ReadBlocks E buf blk n T (__disable_irq s1)).2 rfl
      rw [← hx]
      refine ⟨_, Event.irqOn :: (diag ++ Event.xfer Dir.read buf blk n T (E.xfer s1.nXfer)
        :: Event.irqOff :: wevs), readBlocks_of_wait_ok c E fuel buf blk n T s s1 hn hw, ?_, ?_, ?_⟩
      · have := (errorHandler_frame E "读取" (printf (Msg.readBlocksFail
          (E.xfer s1.nXfer).status) (HAL_SD_ReadBlocks E buf blk n T (__disable_irq s1)).2)).nXfer
        split
        · simp only [__enable_irq, this]; rfl
        · rfl
      · rw [hl, hwl]; simp
      · simp [List.filter_cons, List.filter_append, Event.isXfer, filter_xfer_diag _ diag hd,
          hwf]
  · intro h
    refine ⟨?_, writeBlocks_of_wait_fail c E fuel buf blk n T s s1 st hn h hw,
      readBlocks_of_wait_fail c E fuel buf blk n T s s1 st hn h hw, hx, wevs, hwl, hwf⟩
    rcases hst with h1 | h1
    · exact absurd h1 h
    · exact h1

/-- Witness of C2: a write of one block with the card ready and a failing driver. -/
theorem C2_driver_status_propagated_witness :
    (1 ≠ 0) ∧
    SD_WaitReady stm32 faulty 1 1000 boot =
      Except.ok (HAL_OK, { boot with nTick := 2, nPoll := 1, log := [Event.poll 4] }) ∧
    (∃ s' evs, SD_WriteBlocks stm32 faulty 1 (some sd_backup_buf) 8 1 1000 boot =
        Except.ok (HAL_ERROR, s') ∧
      s'.nXfer = 1 ∧ s'.log = evs ++ [] ∧
      evs.filter Event.isXfer =
        [Event.xfer Dir.write sd_backup_buf 8 1 1000 ⟨HAL_ERROR, []⟩]) :=
  ⟨by decide, rfl,
   ((C2_driver_status_propagated stm32 faulty 1 sd_backup_buf 8 1 1000 boot
     { boot with nTick := 2, nPoll := 1, log := [Event.poll 4] } HAL_OK
     (by decide) rfl).1 rfl).1⟩

theorem untouched_debug_print (b : Bool) (m : Msg) (s : State) :
    Untouched s (if b = true then printf m s else s) := by
  cases b
  · exact ⟨rfl, rfl, rfl, rfl, rfl, rfl, rfl, [], rfl, by simp⟩
  · exact ⟨rfl, rfl, rfl, rfl, rfl, rfl, rfl, [Event.print m], rfl, by simp [Event.isPrint]⟩

/-- C3 (counterexample): called with a null buffer and five blocks, or with a buffer
and zero blocks, `SD_WriteBlocks` returns `HAL_ERROR`, the status that `SD_Check`
returns for a card in the `Error` state; read in the taxonomy of the specification
this is `Error`, not `InvalidArgument`. -/
theorem C3_null_buffer_status_is_error :
    statusOf (SD_WriteBlocks stm32 calm 0 none 8 5 1000 boot) = some HAL_ERROR ∧
    statusOf (SD_WriteBlocks stm32 calm 0 (some sd_backup_buf) 8 0 1000 boot) =
      some HAL_ERROR ∧
    (SD_Check stm32 broken boot).1 = HAL_ERROR ∧
    ¬ ((statusOf (SD_WriteBlocks stm32 calm 0 none 8 5 1000 boot)).map
        HAL_StatusTypeDef.toSpec = some SpecStatus.InvalidArgument) ∧
    ¬ ((statusOf (SD_WriteBlocks stm32 calm 0 (some sd_backup_buf) 8 0 1000 boot)).map
        HAL_StatusTypeDef.toSpec = some SpecStatus.InvalidArgument) := by
  refine ⟨rfl, rfl, rfl, ?_, ?_⟩ <;> decide

/-- Rejected arguments: `HAL_ERROR`, and nothing but text output. -/
theorem invalid_arguments (c : Config) (E : Env) (fuel : Nat)
    (pData : Option Nat) (blk n T : Nat) (s : State) (h : pData = none ∨ n = 0) :
    (∃ s', SD_WriteBlocks c E fuel pData blk n T s = Except.ok (HAL_ERROR, s') ∧
      Untouched s s') ∧
    (∃ s', SD_ReadBlocks c E fuel pData blk n T s = Except.ok (HAL_ERROR, s') ∧
      Untouched s s') := by
  cases pData with
  | none =>
    exact ⟨⟨_, rfl, untouched_debug_print c.DEBUG _ s⟩, ⟨_, rfl, untouched_debug_print c.DEBUG _ s⟩⟩
  | some buf =>
    have hn : n = 0 := by
      rcases h with h | h
      · cases h
      · exact h
    subst hn
    exact ⟨⟨_, rfl, untouched_debug_print c.DEBUG _ s⟩, ⟨_, rfl, untouched_debug_print c.DEBUG _ s⟩⟩

/-- C3 (amended): called with a null buffer or with a block count of zero,
`SD_WriteBlocks` and `SD_ReadBlocks` return `HAL_ERROR`, for every start block and
timeout and whatever the fuel, and touch no hardware: no tick is read, the card state
is not polled, no driver transfer is called, the error mask is not read, and the
interrupt flag, the card and the buffers are as before; a `DEBUG` build prints one
message. -/
theorem C3_invalid_arguments_return_error (c : Config) (E : Env) (fuel : Nat)
    (pData : Option Nat) (blk n T : Nat) (s : State) (h : pData = none ∨ n = 0) :
    (∃ s', SD_WriteBlocks c E fuel pData blk n T s = Except.ok (HAL_ERROR, s') ∧
      Untouched s s') ∧
    (∃ s', SD_ReadBlocks c E fuel pData blk n T s = Except.ok (HAL_ERROR, s') ∧
      Untouched s s') :=
  invalid_arguments c E fuel pData blk n T s h

/-- Witness of C3 (amended): a null buffer with five blocks. -/
theorem C3_invalid_arguments_return_error_witness :
    ((none : Option Nat) = none ∨ 5 = 0) ∧
    (∃ s', SD_WriteBlocks stm32 calm 0 none 8 5 1000 boot = Except.ok (HAL_ERROR, s') ∧
      Untouched boot s') ∧
    (∃ s', SD_ReadBlocks stm32 calm 0 none 8 5 1000 boot = Except.ok (HAL_ERROR, s') ∧
      Untouched boot s') :=
  ⟨Or.inl rfl, C3_invalid_arguments_return_error stm32 calm 0 none 8 5 1000 boot (Or.inl rfl)⟩

theorem check_status (c : Config) (E : Env) (s : State) :
    (SD_Check c E s).1 =
      if E.cardState s.nPoll = c.HAL_SD_CARD_TRANSFER ∨
          E.cardState s.nPoll = c.HAL_SD_CARD_READY then HAL_OK
      else if E.cardState s.nPoll = c.HAL_SD_CARD_SENDING ∨
          E.cardState s.nPoll = c.HAL_SD_CARD_RECEIVING ∨
          E.cardState s.nPoll = c.HAL_SD_CARD_PROGRAMMING then HAL_BUSY
      else if E.cardState s.nPoll = c.HAL_SD_CARD_DISCONNECTED then HAL_TIMEOUT
      else HAL_ERROR := by
  unfold SD_Check
  simp only [HAL_SD_GetCardState]
  split_ifs <;> rfl

/-- C4: the status of `SD_Check` is determined by the card state it reads, whatever
the rest of the hardware, the machine state and the build: `Transfer` and `Ready`
give `HAL_OK`; `Sending`, `Receiving` and `Programming` give `HAL_BUSY`;
`Disconnected` gives `HAL_TIMEOUT`; `Error` gives `HAL_ERROR`; every other value gives
`HAL_ERROR`. -/
theorem C4_check_maps_card_state (c : Config) (hd : c.statesDistinct) (E : Env)
    (s : State) :
    ((E.cardState s.nPoll = c.HAL_SD_CARD_TRANSFER ∨ E.cardState s.nPoll = c.HAL_SD_CARD_READY) →
      (SD_Check c E s).1 = HAL_OK) ∧
    ((E.cardState s.nPoll = c.HAL_SD_CARD_SENDING ∨
      E.cardState s.nPoll = c.HAL_SD_CARD_RECEIVING ∨
      E.cardState s.nPoll = c.HAL_SD_CARD_PROGRAMMING) → (SD_Check c E s).1 = HAL_BUSY) ∧
    (E.cardState s.nPoll = c.HAL_SD_CARD_DISCONNECTED → (SD_Check c E s).1 = HAL_TIMEOUT) ∧
    (E.cardState s.nPoll = c.HAL_SD_CARD_ERROR → (SD_Check c E s).1 = HAL_ERROR) ∧
    (E.cardState s.nPoll ∉ [c.HAL_SD_CARD_TRANSFER, c.HAL_SD_CARD_READY,
        c.HAL_SD_CARD_SENDING, c.HAL_SD_CARD_RECEIVING, c.HAL_SD_CARD_PROGRAMMING,
        c.HAL_SD_CARD_DISCONNECTED, c.HAL_SD_CARD_ERROR] →
      (SD_Check c E s).1 = HAL_ERROR) ∧
    (∀ (E' : Env) (s' : State) (debug : Bool), E'.cardState s'.nPoll = E.cardState s.nPoll →
      (SD_Check { c with DEBUG := debug } E' s').1 = (SD_Check c E s).1) := by
  unfold Config.statesDistinct at hd
  simp only [List.nodup_cons, List.mem_cons, List.mem_singleton, List.not_mem_nil,
    not_or, or_false, List.nodup_nil, and_true] at hd
  obtain ⟨⟨h12, h13, h14, h15, h16, h17⟩, ⟨h23, h24, h25, h26, h27⟩, ⟨h34, h35, h36, h37⟩,
    ⟨h45, h46, h47⟩, ⟨h56, h57⟩, h67, _⟩ := hd
  have g13 := Ne.symm h13
  have g14 := Ne.symm h14
  have g15 := Ne.symm h15
  have g16 := Ne.symm h16
  have g17 := Ne.symm h17
  have g23 := Ne.symm h23
  have g24 := Ne.symm h24
  have g25 := Ne.symm h25
  have g26 := Ne.symm h26
  have g27 := Ne.symm h27
  have g36 := Ne.symm h36
  have g37 := Ne.symm h37
  have g46 := Ne.symm h46
  have g47 := Ne.symm h47
  have g56 := Ne.symm h56
  have g57 := Ne.symm h57
  have g67 := Ne.symm h67
  refine ⟨?_, ?_, ?_, ?_, ?_, ?_⟩
  · intro h
    rw [check_status, if_pos h]
  · intro h
    rw [check_status]
    rcases h with h | h | h <;> rw [h] <;> simp [*]
  · intro h
    rw [check_status, h]
    simp [*]
  · intro h
    rw [check_status, h]
    simp [*]
  · intro h
    simp only [List.mem_cons, List.mem_singleton, List.not_mem_nil, not_or, or_false] at h
    rw [check_status]
    simp [h]
  · intro E' s' debug h
    rw [check_status, check_status, h]

/-- Witness of C4: the card-state codes of the STM32H7 HAL, with the card in the
transfer state. -/
theorem C4_check_maps_card_state_witness :
    stm32.statesDistinct ∧ (SD_Check stm32 calm boot).1 = HAL_OK :=
  ⟨by decide, (C4_check_maps_card_state stm32 (by decide) calm boot).1 (Or.inl rfl)⟩

/-- C5 (counterexample): with the card in the transfer state at the time of the call,
`SD_WaitReady(0)` returns `HAL_TIMEOUT`, not `HAL_OK`. -/
theorem C5_wait_zero_ignores_ready_card :
    calm.cardState boot.nPoll = stm32.HAL_SD_CARD_TRANSFER ∧
    statusOf (SD_WaitReady stm32 calm 5 0 boot) = some HAL_TIMEOUT ∧
    ¬ (calm.cardState boot.nPoll = stm32.HAL_SD_CARD_TRANSFER →
        statusOf (SD_WaitReady stm32 calm 5 0 boot) = some HAL_OK) := by
  refine ⟨rfl, rfl, ?_⟩
  intro h
  exact absurd (h rfl) (by decide)

/-- C5 (amended): `SD_WaitReady(0)` returns `HAL_TIMEOUT` whether or not the card is in
the transfer state, whatever the fuel: it reads the tick twice, once for the start
and once for the loop test, which fails at once, and it does not read the card state;
a `DEBUG` build prints the time-out message. -/
theorem C5_wait_zero_times_out (c : Config) (E : Env) (fuel : Nat) (s : State) :
    SD_WaitReady c E fuel 0 s =
      Except.ok (HAL_TIMEOUT,
        if c.DEBUG = true then
          printf (Msg.waitReadyTimeout 0) { s with nTick := s.nTick + 2 }
        else { s with nTick := s.nTick + 2 }) := by
  cases fuel <;> cases hD : c.DEBUG <;>
    simp [SD_WaitReady, SD_WaitReady.loop, HAL_GetTick, hD]

/-- The three ways in which `SD_WriteBlocks` returns: rejected arguments, a failed
readiness wait, or a driver transfer between `__disable_irq` and `__enable_irq`. -/
theorem writeBlocks_cases (c : Config) (E : Env) (fuel : Nat) (pData : Option Nat)
    (blk n T : Nat) (s : State) (st : HAL_StatusTypeDef) (s' : State)
    (h : SD_WriteBlocks c E fuel pData blk n T s = Except.ok (st, s')) :
    ((pData = none ∨ n = 0) ∧ st = HAL_ERROR ∧ Untouched s s') ∨
    (∃ buf, pData = some buf ∧ n ≠ 0 ∧ st ≠ HAL_OK ∧
      SD_WaitReady c E fuel T s = Except.ok (st, s')) ∨
    (∃ buf s1, pData = some buf ∧ n ≠ 0 ∧
      SD_WaitReady c E fuel T s = Except.ok (HAL_OK, s1) ∧
      st = (E.xfer s1.nXfer).status ∧
      s' = __enable_irq
        (if (E.xfer s1.nXfer).status ≠ HAL_OK ∧ c.DEBUG = true then
          SD_ErrorHandler E "写入"
            (printf (Msg.writeBlocksFail (E.xfer s1.nXfer).status)
              (HAL_SD_WriteBlocks E buf blk n T (__disable_irq s1)).2)
         else (HAL_SD_WriteBlocks E buf blk n T (__disable_irq s1)).2)) := by
  by_cases hbad : pData = none ∨ n = 0
  · obtain ⟨⟨s2, h2, hu⟩, _⟩ := invalid_arguments c E fuel pData blk n T s hbad
    rw [h2] at h
    cases h
    exact Or.inl ⟨hbad, rfl, hu⟩
  · rw [not_or] at hbad
    obtain ⟨hp, hn⟩ := hbad
    obtain ⟨buf, hbuf⟩ := Option.ne_none_iff_exists'.mp hp
    subst hbuf
    cases hw : SD_WaitReady c E fuel T s with
    | error e => simp [SD_WriteBlocks, hn, hw] at h
    | ok r =>
      obtain ⟨st1, s1⟩ := r
      by_cases hst : st1 = HAL_OK
      · subst hst
        rw [writeBlocks_of_wait_ok c E fuel buf blk n T s s1 hn hw] at h
        cases h
        exact Or.inr (Or.inr ⟨buf, s1, rfl, hn, rfl, rfl, rfl⟩)
      · rw [writeBlocks_of_wait_fail c E fuel buf blk n T s s1 st1 hn hst hw] at h
        cases h
        exact Or.inr (Or.inl ⟨buf, rfl, hn, hst, rfl⟩)

/-- The three ways in which `SD_ReadBlocks` returns. -/
theorem readBlocks_cases (c : Config) (E : Env) (fuel : Nat) (pData : Option Nat)
    (blk n T : Nat) (s : State) (st : HAL_StatusTypeDef) (s' : State)
    (h : SD_ReadBlocks c E fuel pData blk n T s = Except.ok (st, s')) :
    ((pData = none ∨ n = 0) ∧ st = HAL_ERROR ∧ Untouched s s') ∨
    (∃ buf, pData = some buf ∧ n ≠ 0 ∧ st ≠ HAL_OK ∧
      SD_WaitReady c E fuel T s = Except.ok (st, s')) ∨
    (∃ buf s1, pData = some buf ∧ n ≠ 0 ∧
      SD_WaitReady c E fuel T s = Except.ok (HAL_OK, s1) ∧
      st = (E.xfer s1.nXfer).status ∧
      s' = __enable_irq
        (if (E.xfer s1.nXfer).status ≠ HAL_OK ∧ c.DEBUG = true then
          SD_ErrorHandler E "读取"
            (printf (Msg.readBlocksFail (E.xfer s1.nXfer).status)
              (HAL_SD_ReadBlocks E buf blk n T (__disable_irq s1)).2)
         else (HAL_SD_ReadBlocks E buf blk n T (__disable_irq s1)).2)) := by
  by_cases hbad : pData = none ∨ n = 0
  · obtain ⟨_, ⟨s2, h2, hu⟩⟩ := invalid_arguments c E fuel pData blk n T s hbad
    rw [h2] at h
    cases h
    exact Or.inl ⟨hbad, rfl, hu⟩
  · rw [not_or] at hbad
    obtain ⟨hp, hn⟩ := hbad
    obtain ⟨buf, hbuf⟩ := Option.ne_none_iff_exists'.mp hp
    subst hbuf
    cases hw : SD_WaitReady c E fuel T s with
    | error e => simp [SD_ReadBlocks, hn, hw] at h
    | ok r =>
      obtain ⟨st1, s1⟩ := r
      by_cases hst : st1 = HAL_OK
      · subst hst
        rw [readBlocks_of_wait_ok c E fuel buf blk n T s s1 hn hw] at h
        cases h
        exact Or.inr (Or.inr ⟨buf, s1, rfl, hn, rfl, rfl, rfl⟩)
      · rw [readBlocks_of_wait_fail c E fuel buf blk n T s s1 st1 hn hst hw] at h
        cases h
        exact Or.inr (Or.inl ⟨buf, rfl, hn, hst, rfl⟩)

theorem Early.erefl (s : State) : Early s s := ⟨rfl, [], rfl, by simp⟩

theorem Early.etrans {s1 s2 s3 : State} (h12 : Early s1 s2) (h23 : Early s2 s3) :
    Early s1 s3 := by
  obtain ⟨a1, e1, l1, p1⟩ := h12
  obtain ⟨b1, e2, l2, p2⟩ := h23
  refine ⟨b1.trans a1, e2 ++ e1, by rw [l2, l1, List.append_assoc], ?_⟩
  intro e he
  rcases List.mem_append.mp he with h | h
  · exact p2 e h
  · exact p1 e h

theorem Late.lrefl (s : State) : Late s s := ⟨rfl, [], rfl⟩

theorem Late.ltrans {s1 s2 s3 : State} (h12 : Late s1 s2) (h23 : Late s2 s3) :
    Late s1 s3 := by
  obtain ⟨a1, e1, l1⟩ := h12
  obtain ⟨b1, e2, l2⟩ := h23
  exact ⟨b1.trans a1, e2 ++ e1, by rw [l2, l1, List.append_assoc]⟩

theorem Frame.early {p : Event → Bool} {s s' : State}
    (hp : ∀ e, p e = true → e.isEarly = true) (h : Frame p s s') : Early s s' := by
  obtain ⟨_, hc, _, _, evs, hl, hall⟩ := h
  exact ⟨hc, evs, hl, fun e he => hp e (hall e he)⟩

theorem Frame.late {p : Event → Bool} {s s' : State} (h : Frame p s s') : Late s s' := by
  obtain ⟨_, _, hm, _, evs, hl, _⟩ := h
  exact ⟨by rw [hm], evs, hl⟩

theorem isWait_early (e : Event) (h : e.isWait = true) : e.isEarly = true := by
  cases e with
  | print m => cases m <;> simp_all [Event.isWait, Event.isEarly]
  | _ => simp_all [Event.isWait, Event.isEarly]

theorem isDiag_early (e : Event) (h : e.isDiag = true) : e.isEarly = true := by
  cases e with
  | print m => cases m <;> simp_all [Event.isDiag, Msg.isDiag, Event.isEarly]
  | _ => simp_all [Event.isDiag, Event.isEarly]

theorem Early.etick (E : Env) (s : State) : Early s (HAL_GetTick E s).2 :=
  ⟨rfl, [], rfl, by simp⟩

theorem Late.ltick (E : Env) (s : State) : Late s (HAL_GetTick E s).2 :=
  ⟨rfl, [], rfl⟩

theorem Early.eprint (m : Msg) (s : State) (h : (Event.print m).isEarly = true) :
    Early s (printf m s) :=
  ⟨rfl, [Event.print m], rfl, by simpa using h⟩

theorem Late.lprint (m : Msg) (s : State) : Late s (printf m s) :=
  ⟨rfl, [Event.print m], rfl⟩

theorem Early.ewait {c : Config} {E : Env} {fuel T : Nat} {s s' : State}
    {st : HAL_StatusTypeDef} (h : SD_WaitReady c E fuel T s = Except.ok (st, s')) :
    Early s s' :=
  (waitReady_frame c E fuel T s st s' h).1.early isWait_early

theorem Late.lwait {c : Config} {E : Env} {fuel T : Nat} {s s' : State}
    {st : HAL_StatusTypeDef} (h : SD_WaitReady c E fuel T s = Except.ok (st, s')) :
    Late s s' :=
  (waitReady_frame c E fuel T s st s' h).1.late

theorem patch_length (noise : List (Nat × Nat)) :
    ∀ data : List Nat, (patch noise data).length = data.length := by
  induction noise with
  | nil => intro data; rfl
  | cons p rest ih =>
    intro data
    show (patch rest (data.set p.1 (p.2 % 256))).length = data.length
    rw [ih, List.length_set]

theorem cardRead_length (card : Nat → Nat) (blk n : Nat) :
    (cardRead card blk n).length = n * SD_BLOCK_SIZE := by
  simp [cardRead]

theorem cardRead_getD (card : Nat → Nat) (blk n i : Nat) (hi : i < n * SD_BLOCK_SIZE) :
    (cardRead card blk n).getD i 0 = card (blk * SD_BLOCK_SIZE + i) := by
  simp [cardRead, List.getD_eq_getElem?_getD, hi]

/-- What stays as it is across the part of a block transfer that follows the driver
call. -/
theorem after_transfer_fields (E : Env) (op : String) (m : Msg) (P : Prop) [Decidable P]
    (sx : State) :
    (__enable_irq (if P then SD_ErrorHandler E op (printf m sx) else sx)).card = sx.card ∧
    (__enable_irq (if P then SD_ErrorHandler E op (printf m sx) else sx)).mem = sx.mem ∧
    (__enable_irq (if P then SD_ErrorHandler E op (printf m sx) else sx)).nXfer = sx.nXfer := by
  obtain ⟨_, h2, h3, h4, _⟩ := errorHandler_frame E op (printf m sx)
  by_cases hP : P
  · simp only [if_pos hP, __enable_irq, h2, h3, h4]
    exact ⟨rfl, rfl, rfl⟩
  · simp only [if_neg hP, __enable_irq]
    exact ⟨trivial, trivial, trivial⟩

/-- `SD_ReadBlocks` with a buffer and a block count other than zero: the card is as
before, it logs early events only, and after `HAL_OK` exactly one transfer has been
made and the buffer holds what the driver delivered. -/
theorem readBlocks_early (c : Config) (E : Env) (fuel buf blk n T : Nat) (s : State)
    (st : HAL_StatusTypeDef) (s' : State) (hn : n ≠ 0)
    (h : SD_ReadBlocks c E fuel (some buf) blk n T s = Except.ok (st, s')) :
    Early s s' ∧
    (st = HAL_OK → s'.nXfer = s.nXfer + 1 ∧
      Holds (s'.mem buf) (n * SD_BLOCK_SIZE)
        (fun i => (patch (E.xfer s.nXfer).noise (cardRead s.card blk n)).getD i 0)) := by
  rcases readBlocks_cases c E fuel (some buf) blk n T s st s' h with
    ⟨hbad, _, _⟩ | ⟨_, _, _, hst, hw⟩ | ⟨buf', s1, hp, _, hw, hst, hs'⟩
  · rcases hbad with h1 | h1
    · cases h1
    · exact absurd h1 hn
  · exact ⟨Early.ewait hw, fun h1 => absurd h1 hst⟩
  · cases hp
    obtain ⟨⟨_, hc, _, hnx, wevs, hwl, hwp⟩, _⟩ := waitReady_frame c E fuel T s _ s1 hw
    obtain ⟨diag, hl, hd, _, hnP⟩ := log_after_transfer E "读取"
      (Msg.readBlocksFail (E.xfer s1.nXfer).status)
      (Event.xfer Dir.read buf blk n T (E.xfer s1.nXfer))
      ((E.xfer s1.nXfer).status ≠ HAL_OK ∧ c.DEBUG = true) s1
      (HAL_SD_ReadBlocks E buf blk n T (__disable_irq s1)).2 rfl
    obtain ⟨f1, f2, f3⟩ := after_transfer_fields E "读取"
      (Msg.readBlocksFail (E.xfer s1.nXfer).status)
      ((E.xfer s1.nXfer).status ≠ HAL_OK ∧ c.DEBUG = true)
      (HAL_SD_ReadBlocks E buf blk n T (__disable_irq s1)).2
    subst hs'
    refine ⟨⟨by rw [f1]; exact hc, Event.irqOn :: (diag ++ Event.xfer Dir.read buf blk n T
      (E.xfer s1.nXfer) :: Event.irqOff :: wevs), by rw [hl, hwl]; simp, ?_⟩, ?_⟩
    · intro e he
      simp only [List.mem_cons, List.mem_append] at he
      rcases he with h1 | h1 | h1 | h1 | h1
      · subst h1; rfl
      · rcases hd e h1 with h2 | h2
        · subst h2; rfl
        · exact isDiag_early e h2
      · subst h1; rfl
      · subst h1; rfl
      · exact isWait_early e (hwp e h1)
    · intro hok
      refine ⟨by rw [f3]; show s1.nXfer + 1 = s.nXfer + 1; rw [hnx], ?_⟩
      rw [f2]
      show Holds (setBuf _ buf _ buf) _ _
      simp only [setBuf, if_true, __disable_irq]
      rw [hnx, hc]
      constructor
      · rw [List.length_append, patch_length, cardRead_length]
        omega
      · intro i hi
        rw [List.getD_append _ _ _ _ (by rw [patch_length, cardRead_length]; exact hi)]

/-- `SD_WriteBlocks` leaves every buffer as it is. -/
theorem writeBlocks_late (c : Config) (E : Env) (fuel : Nat) (pData : Option Nat)
    (blk n T : Nat) (s : State) (st : HAL_StatusTypeDef) (s' : State)
    (h : SD_WriteBlocks c E fuel pData blk n T s = Except.ok (st, s')) :
    Late s s' := by
  rcases writeBlocks_cases c E fuel pData blk n T s st s' h with
    ⟨_, _, hu⟩ | ⟨_, _, _, hst, hw⟩ | ⟨buf', s1, hp, _, hw, hst, hs'⟩
  · obtain ⟨_, _, _, _, _, _, hm, evs, hl, _⟩ := hu
    exact ⟨by rw [hm], evs, hl⟩
  · exact Late.lwait hw
  · obtain ⟨⟨_, _, hm, _, wevs, hwl, _⟩, _⟩ := waitReady_frame c E fuel T s _ s1 hw
    obtain ⟨diag, hl, _, _, _⟩ := log_after_transfer E "写入"
      (Msg.writeBlocksFail (E.xfer s1.nXfer).status)
      (Event.xfer Dir.write buf' blk n T (E.xfer s1.nXfer))
      ((E.xfer s1.nXfer).status ≠ HAL_OK ∧ c.DEBUG = true) s1
      (HAL_SD_WriteBlocks E buf' blk n T (__disable_irq s1)).2 rfl
    obtain ⟨_, f2, _⟩ := after_transfer_fields E "写入"
      (Msg.writeBlocksFail (E.xfer s1.nXfer).status)
      ((E.xfer s1.nXfer).status ≠ HAL_OK ∧ c.DEBUG = true)
      (HAL_SD_WriteBlocks E buf' blk n T (__disable_irq s1)).2
    subst hs'
    refine ⟨by rw [f2]; show s1.mem _ = _; rw [hm], Event.irqOn :: (diag ++
      Event.xfer Dir.write buf' blk n T (E.xfer s1.nXfer) :: Event.irqOff :: wevs), ?_⟩
    rw [hl, hwl]; simp

theorem andThen_cases {α β : Type} (m : Except Stop (Flow α))
    (f : α → State → Except Stop (Flow β)) (r : Flow β)
    (h : Flow.andThen m f = Except.ok r) :
    (∃ a s1, m = Except.ok (Flow.next a s1) ∧ f a s1 = Except.ok r) ∨
    (∃ st s1, m = Except.ok (Flow.ret st s1) ∧ r = Flow.ret st s1) ∨
    (∃ st s1, m = Except.ok (Flow.gotoRestore st s1) ∧ r = Flow.gotoRestore st s1) := by
  cases m with
  | error e => simp [Flow.andThen] at h
  | ok fl =>
    cases fl with
    | next a s1 => exact Or.inl ⟨a, s1, rfl, h⟩
    | ret st s1 =>
      simp only [Flow.andThen, Except.ok.injEq] at h
      exact Or.inr (Or.inl ⟨st, s1, rfl, h.symm⟩)
    | gotoRestore st s1 =>
      simp only [Flow.andThen, Except.ok.injEq] at h
      exact Or.inr (Or.inr ⟨st, s1, rfl, h.symm⟩)

theorem forUpTo_succ {σ : Type} (n : Nat) (body : Nat → σ → σ) (init : σ) :
    forUpTo (n + 1) body init = body n (forUpTo n body init) := by
  simp [forUpTo, List.range_succ, List.foldl_append]

/-- A loop that replaces byte `i` by `f` of it, for `i` from `0` to `n - 1`. -/
theorem setLoop_spec (f : Nat → Nat) (buf : List Nat) :
    ∀ n : Nat,
      (forUpTo n (fun i b => b.set i (f (b.getD i 0))) buf).length = buf.length ∧
      ∀ i, (forUpTo n (fun i b => b.set i (f (b.getD i 0))) buf).getD i 0 =
        if i < n ∧ i < buf.length then f (buf.getD i 0) else buf.getD i 0 := by
  intro n
  induction n with
  | zero => exact ⟨rfl, fun i => by simp [forUpTo]⟩
  | succ n ih =>
    obtain ⟨hlen, hget⟩ := ih
    rw [forUpTo_succ]
    refine ⟨by rw [List.length_set, hlen], ?_⟩
    intro i
    rw [List.getD_eq_getElem?_getD, List.getElem?_set]
    by_cases hin : n = i
    · subst hin
      rw [if_pos rfl, hlen]
      by_cases hl : n < buf.length
      · rw [if_pos hl, hget n]
        simp [hl]
      · rw [if_neg hl]
        simp [hl, List.getElem?_eq_none (Nat.le_of_not_lt hl)]
    · rw [if_neg hin, ← List.getD_eq_getElem?_getD, hget i]
      by_cases hl : i < buf.length
      · by_cases h1 : i < n
        · have h2 : i < n + 1 := by omega
          simp [h1, h2, hl]
        · have h2 : ¬ i < n + 1 := by omega
          simp [h1, h2]
      · simp [hl]

theorem Holds.setLoop {buf : List Nat} {n : Nat} {g : Nat → Nat} (f : Nat → Nat)
    (h : Holds buf n g) :
    Holds (forUpTo n (fun i b => b.set i (f (b.getD i 0))) buf) n (fun i => f (g i)) := by
  obtain ⟨hlen, hget⟩ := setLoop_spec f buf n
  refine ⟨by rw [hlen]; exact h.1, ?_⟩
  intro i hi
  rw [hget i, if_pos ⟨hi, Nat.lt_of_lt_of_le hi h.1⟩, h.2 i hi]

theorem checkReady_spec (c : Config) (E : Env) (s : State) (r : Flow Unit)
    (h : SD_MeasureTest.checkReady c E s = Except.ok r) :
    Early s r.state ∧ r.state.nXfer = s.nXfer ∧ r.isGoto = false ∧
    (∀ st, r.leftWith = some st → st ≠ HAL_OK) := by
  have h1 : Early s (HAL_SD_GetCardState E (printf Msg.checkReady s)).2 :=
    ⟨rfl, [Event.poll (E.cardState s.nPoll), Event.print Msg.checkReady], rfl, by
      intro e he
      simp at he
      rcases he with h | h <;> subst h <;> rfl⟩
  unfold SD_MeasureTest.checkReady at h
  simp only at h
  split at h
  · cases h
    refine ⟨h1.etrans (Early.eprint _ _ (by rfl)), rfl, rfl, ?_⟩
    intro st hst
    cases hst
    decide
  · cases h
    exact ⟨h1, rfl, rfl, (fun st hst => by cases hst)⟩

theorem backupLoop_spec (c : Config) (E : Env) (fuel : Nat) (hn : c.SD_TEST_BLOCKS ≠ 0) :
    ∀ (k : Nat) (s : State) (r : Flow Unit),
      SD_MeasureTest.backupLoop c E fuel k s = Except.ok r →
      Early s r.state ∧ r.isGoto = false ∧ (∀ st, r.leftWith = some st → st ≠ HAL_OK) ∧
      (r.leftWith = none → r.state.nXfer = s.nXfer + k ∧
        (1 ≤ k → Holds (r.state.mem sd_backup_buf) (c.SD_TEST_BLOCKS * SD_BLOCK_SIZE)
          (fun i => (patch (E.xfer (s.nXfer + k - 1)).noise
            (cardRead s.card c.SD_TEST_BLOCK_START c.SD_TEST_BLOCKS)).getD i 0))) := by
  intro k
  induction k with
  | zero =>
    intro s r h
    simp only [SD_MeasureTest.backupLoop, Except.ok.injEq] at h
    subst h
    exact ⟨Early.erefl s, rfl, (fun st hst => by cases hst), fun _ => ⟨rfl, fun hk => by omega⟩⟩
  | succ k ih =>
    intro s r h
    simp only [SD_MeasureTest.backupLoop] at h
    split at h
    · cases h
    · rename_i st1 s1 hrd
      obtain ⟨he1, hok⟩ := readBlocks_early c E fuel sd_backup_buf _ _ _ s st1 s1 hn hrd
      split at h
      · rename_i hst
        cases h
        refine ⟨he1.etrans (Early.eprint _ _ (by rfl)), rfl, ?_, fun hnone => by cases hnone⟩
        intro st hst'
        cases hst'
        exact hst
      · rename_i hst
        have hst1 : st1 = HAL_OK := by
          by_contra hne
          exact hst hne
        obtain ⟨hnx, hholds⟩ := hok hst1
        obtain ⟨he2, hg, hl, hnext⟩ := ih s1 r h
        refine ⟨he1.etrans he2, hg, hl, ?_⟩
        intro hnone
        obtain ⟨hk1, hk2⟩ := hnext hnone
        refine ⟨by rw [hk1, hnx]; omega, fun _ => ?_⟩
        cases k with
        | zero =>
          simp only [SD_MeasureTest.backupLoop, Except.ok.injEq] at h
          subst h
          exact hholds
        | succ k' =>
          have := hk2 (by omega)
          rw [hnx, he1.1] at this
          have hidx : s.nXfer + 1 + (k' + 1) - 1 = s.nXfer + (k' + 1 + 1) - 1 := by omega
          rw [hidx] at this
          exact this

theorem backup_spec (c : Config) (E : Env) (fuel : Nat) (hn : c.SD_TEST_BLOCKS ≠ 0)
    (s : State) (r : Flow Nat) (h : SD_MeasureTest.backup c E fuel s = Except.ok r) :
    Early s r.state ∧ r.isGoto = false ∧ (∀ st, r.leftWith = some st → st ≠ HAL_OK) ∧
    (r.leftWith = none →
      Holds (r.state.mem sd_backup_buf) (c.SD_TEST_BLOCKS * SD_BLOCK_SIZE)
        (fun i => (patch (E.xfer (s.nXfer + 3)).noise
          (cardRead s.card c.SD_TEST_BLOCK_START c.SD_TEST_BLOCKS)).getD i 0)) := by
  unfold SD_MeasureTest.backup at h
  simp only at h
  have h0 : Early s (HAL_GetTick E (printf (Msg.backupBegin (c.SD_TEST_BLOCK_START % U32)
      (sub32 (add32 c.SD_TEST_BLOCK_START c.SD_TEST_BLOCKS) 1)) s)).2 :=
    (Early.eprint _ s (by rfl)).etrans (Early.etick E _)
  rcases andThen_cases _ _ r h with ⟨a, s1, hm, hf⟩ | ⟨st, s1, hm, hr⟩ | ⟨st, s1, hm, hr⟩
  · obtain ⟨he1, _, _, hnext⟩ := backupLoop_spec c E fuel hn 4 _ _ hm
    obtain ⟨hnx, hholds⟩ := hnext rfl
    have hholds := hholds (by decide)
    simp only [Flow.state] at he1 hnx hholds
    split at hf
    · cases hf
    · rename_i st2 s2 hw
      obtain ⟨⟨_, _, hmem, _, _⟩, _⟩ := waitReady_frame c E fuel _ _ _ _ hw
      split at hf
      · rename_i hst
        cases hf
        refine ⟨(h0.etrans he1).etrans (Early.ewait hw), rfl, ?_, fun hnone => by cases hnone⟩
        intro st hst'
        cases hst'
        exact hst
      · cases hf
        refine ⟨((h0.etrans he1).etrans (Early.ewait hw)).etrans
          ((Early.etick E _).etrans (Early.eprint _ _ (by rfl))), rfl, (fun st hst' => by cases hst'), ?_⟩
        intro _
        show Holds (s2.mem sd_backup_buf) _ _
        rw [hmem]
        exact hholds
  · obtain ⟨he1, _, hl, _⟩ := backupLoop_spec c E fuel hn 4 _ _ hm
    subst hr
    exact ⟨h0.etrans he1, rfl, hl, fun hnone => by cases hnone⟩
  · obtain ⟨_, hg, _, _⟩ := backupLoop_spec c E fuel hn 4 _ _ hm
    cases hg

theorem writeLoop_spec (c : Config) (E : Env) (fuel : Nat) :
    ∀ (k j : Nat) (s : State) (r : Flow Unit),
      SD_MeasureTest.writeLoop c E fuel k j s = Except.ok r →
      Late s r.state ∧ r.isRet = false := by
  intro k
  induction k with
  | zero =>
    intro j s r h
    simp only [SD_MeasureTest.writeLoop, Except.ok.injEq] at h
    subst h
    exact ⟨Late.lrefl s, rfl⟩
  | succ k ih =>
    intro j s r h
    simp only [SD_MeasureTest.writeLoop] at h
    split at h
    · cases h
    · rename_i st1 s1 hwr
      have hl1 := writeBlocks_late c E fuel _ _ _ _ s st1 s1 hwr
      split at h
      · cases h
        exact ⟨hl1.ltrans (Late.lprint _ _), rfl⟩
      · obtain ⟨hl2, hr⟩ := ih _ s1 r h
        exact ⟨hl1.ltrans hl2, hr⟩

theorem write_spec (c : Config) (E : Env) (fuel : Nat) (s : State) (r : Flow Nat)
    (h : SD_MeasureTest.write c E fuel s = Except.ok r) :
    Late s r.state ∧ r.isRet = false := by
  unfold SD_MeasureTest.write at h
  simp only at h
  have h0 : Late s (HAL_GetTick E (printf Msg.writeBegin s)).2 :=
    (Late.lprint _ s).ltrans (Late.ltick E _)
  rcases andThen_cases _ _ r h with ⟨a, s1, hm, hf⟩ | ⟨st, s1, hm, hr⟩ | ⟨st, s1, hm, hr⟩
  · obtain ⟨hl1, _⟩ := writeLoop_spec c E fuel 4 0 _ _ hm
    simp only [Flow.state] at hl1
    split at hf
    · cases hf
    · rename_i st2 s2 hw
      split at hf
      · cases hf
        exact ⟨((h0.ltrans hl1).ltrans (Late.lwait hw)).ltrans (Late.lprint _ _), rfl⟩
      · cases hf
        exact ⟨((h0.ltrans hl1).ltrans (Late.lwait hw)).ltrans
          ((Late.ltick E _).ltrans (Late.lprint _ _)), rfl⟩
  · obtain ⟨_, hr'⟩ := writeLoop_spec c E fuel 4 0 _ _ hm
    cases hr'
  · obtain ⟨hl1, _⟩ := writeLoop_spec c E fuel 4 0 _ _ hm
    subst hr
    exact ⟨h0.ltrans hl1, rfl⟩

theorem compareByte_late (c : Config) (i j : Nat) (acc : Nat × State) :
    Late acc.2 (SD_MeasureTest.compareByte c i j acc).2 := by
  obtain ⟨ve, s⟩ := acc
  unfold SD_MeasureTest.compareByte
  simp only
  split
  · split
    · exact Late.lprint _ _
    · exact Late.lrefl _
  · exact Late.lrefl _

theorem compareLoop_late (c : Config) (i : Nat) (acc : Nat × State) :
    ∀ n : Nat, Late acc.2 (forUpTo n (SD_MeasureTest.compareByte c i) acc).2 := by
  intro n
  induction n with
  | zero => exact Late.lrefl _
  | succ n ih =>
    rw [forUpTo_succ]
    exact ih.ltrans (compareByte_late c i n _)

theorem readBuf_late (E : Env) (blk n T : Nat) (s : State) :
    Late s (HAL_SD_ReadBlocks E sd_read_buf blk n T s).2 :=
  ⟨by simp [HAL_SD_ReadBlocks, setBuf, sd_read_buf, sd_backup_buf], [_], rfl⟩

theorem verifyBlock_spec (c : Config) (E : Env) (fuel i ve : Nat) (s : State)
    (r : Flow Nat) (h : SD_MeasureTest.verifyBlock c E fuel i ve s = Except.ok r) :
    Late s r.state ∧ r.isRet = false := by
  unfold SD_MeasureTest.verifyBlock at h
  simp only at h
  have h1 := readBuf_late E (add32 c.SD_TEST_BLOCK_START i) 1 c.SD_TIMEOUT_MS s
  split at h
  · cases h
    exact ⟨h1.ltrans (errorHandler_frame E _ _).late, rfl⟩
  · split at h
    · cases h
    · rename_i st2 s2 hw
      split at h
      · cases h
        exact ⟨((h1.ltrans (Late.lwait hw)).ltrans (Late.lprint _ _)).ltrans
          (errorHandler_frame E _ _).late, rfl⟩
      · cases h
        exact ⟨(h1.ltrans (Late.lwait hw)).ltrans (compareLoop_late c i (ve, s2) _), rfl⟩

theorem verifyLoop_spec (c : Config) (E : Env) (fuel : Nat) :
    ∀ (k i ve : Nat) (s : State) (r : Flow Nat),
      SD_MeasureTest.verifyLoop c E fuel k i ve s = Except.ok r →
      Late s r.state ∧ r.isRet = false := by
  intro k
  induction k with
  | zero =>
    intro i ve s r h
    simp only [SD_MeasureTest.verifyLoop, Except.ok.injEq] at h
    subst h
    exact ⟨Late.lrefl s, rfl⟩
  | succ k ih =>
    intro i ve s r h
    simp only [SD_MeasureTest.verifyLoop] at h
    rcases andThen_cases _ _ r h with ⟨a, s1, hm, hf⟩ | ⟨st, s1, hm, hr⟩ | ⟨st, s1, hm, hr⟩
    · obtain ⟨hl1, _⟩ := verifyBlock_spec c E fuel i ve s _ hm
      obtain ⟨hl2, hr⟩ := ih _ _ _ r hf
      exact ⟨hl1.ltrans hl2, hr⟩
    · obtain ⟨_, hr'⟩ := verifyBlock_spec c E fuel i ve s _ hm
      cases hr'
    · obtain ⟨hl1, _⟩ := verifyBlock_spec c E fuel i ve s _ hm
      subst hr
      exact ⟨hl1, rfl⟩

theorem verify_spec (c : Config) (E : Env) (fuel : Nat) (s : State) (r : Flow Nat)
    (h : SD_MeasureTest.verify c E fuel s = Except.ok r) :
    Late s r.state ∧ r.isRet = false := by
  unfold SD_MeasureTest.verify at h
  obtain ⟨hl, hr⟩ := verifyLoop_spec c E fuel _ _ _ _ r h
  exact ⟨(Late.lprint _ s).ltrans hl, hr⟩

theorem report_spec (c : Config) (ve wt rt : Nat) (s : State) (r : Flow HAL_StatusTypeDef)
    (h : SD_MeasureTest.report c ve wt rt s = Except.ok r) :
    Late s r.state ∧ r.isRet = false ∧
    (ve ≠ 0 → r = Flow.next HAL_ERROR (printf (Msg.verifyFail ve) s)) := by
  unfold SD_MeasureTest.report at h
  simp only at h
  split at h
  · rename_i hz
    split at h
    · cases h
    · split at h
      · cases h
      · cases h
        exact ⟨(((Late.lprint _ s).ltrans (Late.lprint _ _)).ltrans (Late.lprint _ _)).ltrans
          (Late.lprint _ _), rfl, fun hne => absurd hz hne⟩
  · cases h
    exact ⟨Late.lprint _ s, rfl, fun _ => rfl⟩

theorem mul32_blocks (n : Nat) (h : n ≤ 256) : mul32 n SD_BLOCK_SIZE = n * SD_BLOCK_SIZE := by
  unfold mul32 SD_BLOCK_SIZE U32
  omega

theorem atRestore_of_late (c : Config) (E : Env) (s s2 sr : State)
    (hn : c.SD_TEST_BLOCKS ≠ 0) (hle : c.SD_TEST_BLOCKS ≤ 256)
    (he : Early s s2)
    (hh : Holds (s2.mem sd_backup_buf) (c.SD_TEST_BLOCKS * SD_BLOCK_SIZE)
      (fun i => (patch (E.xfer (s.nXfer + 3)).noise
        (cardRead s.card c.SD_TEST_BLOCK_START c.SD_TEST_BLOCKS)).getD i 0))
    (hl : Late (SD_MeasureTest.mutate c s2) sr) : AtRestore c E s sr := by
  obtain ⟨_, evs1, hl1, _⟩ := he
  obtain ⟨hm, evs2, hl2⟩ := hl
  refine ⟨hn, hle, ⟨evs2 ++ Event.print Msg.prepareWrite :: evs1, ?_, ?_⟩, ?_⟩
  · rw [hl2]
    show evs2 ++ (Event.print Msg.prepareWrite :: s2.log) = _
    rw [hl1]; simp
  · simp
  · rw [hm]
    have hmut : (SD_MeasureTest.mutate c s2).mem sd_backup_buf =
        forUpTo (c.SD_TEST_BLOCKS * SD_BLOCK_SIZE)
          (fun i buf => buf.set i (add8 (buf.getD i 0) 0x0A)) (s2.mem sd_backup_buf) := by
      simp [SD_MeasureTest.mutate, setBuf, mul32_blocks _ hle, printf]
    rw [hmut]
    exact Holds.setLoop (fun x => add8 x 0x0A) hh

/-- Everything above the label `restore_data`: the function either returns, with a
status other than `HAL_OK`, the card as it was and early events only, or it is at the
label as `AtRestore` describes. -/
theorem body_spec (c : Config) (E : Env) (fuel : Nat) (s : State)
    (r : Flow HAL_StatusTypeDef) (h : SD_MeasureTest.body c E fuel s = Except.ok r) :
    (r.isRet = true → Early s r.state ∧ ∀ st, r.leftWith = some st → st ≠ HAL_OK) ∧
    (r.isRet = false → AtRestore c E s r.state) := by
  unfold SD_MeasureTest.body at h
  split at h
  · cases h
    exact ⟨fun _ => ⟨Early.eprint _ s (by rfl), fun st hst => by cases hst; decide⟩,
      fun hf => by cases hf⟩
  · rename_i hn
    split at h
    · cases h
      exact ⟨fun _ => ⟨Early.eprint _ s (by rfl), fun st hst => by cases hst; decide⟩,
        fun hf => by cases hf⟩
    · rename_i hle
      have hle : c.SD_TEST_BLOCKS ≤ 256 := Nat.le_of_not_lt hle
      simp only at h
      have h0 : Early s (printf Msg.testBegin s) := Early.eprint _ s (by rfl)
      rcases andThen_cases _ _ r h with ⟨a, s1, hm, hf⟩ | ⟨st, s1, hm, hr⟩ | ⟨st, s1, hm, hr⟩
      · obtain ⟨he1, hx1, _, _⟩ := checkReady_spec c E _ _ hm
        simp only [Flow.state] at he1 hx1
        have he1 := h0.etrans he1
        have hx1 : s1.nXfer = s.nXfer := hx1
        rcases andThen_cases _ _ r hf with ⟨b, s2, hm2, hf2⟩ | ⟨st, s2, hm2, hr⟩ |
          ⟨st, s2, hm2, hr⟩
        · obtain ⟨he2, _, _, hholds⟩ := backup_spec c E fuel hn _ _ hm2
          have hholds := hholds rfl
          simp only [Flow.state] at he2 hholds
          rw [hx1, he1.1] at hholds
          have he2 := he1.etrans he2
          refine ⟨fun hret => ?_, fun _ => ?_⟩
          · exfalso
            rcases andThen_cases _ _ r hf2 with ⟨w, s3, hm3, hf3⟩ | ⟨st, s3, hm3, hr⟩ |
              ⟨st, s3, hm3, hr⟩
            · rcases andThen_cases _ _ r hf3 with ⟨v, s4, hm4, hf4⟩ | ⟨st, s4, hm4, hr⟩ |
                ⟨st, s4, hm4, hr⟩
              · have := (report_spec c _ _ _ _ r hf4).2.1
                rw [this] at hret; cases hret
              · have := (verify_spec c E fuel _ _ hm4).2
                cases this
              · subst hr; cases hret
            · have := (write_spec c E fuel _ _ hm3).2
              cases this
            · subst hr; cases hret
          · rcases andThen_cases _ _ r hf2 with ⟨w, s3, hm3, hf3⟩ | ⟨st, s3, hm3, hr⟩ |
              ⟨st, s3, hm3, hr⟩
            · have hl3 := (write_spec c E fuel _ _ hm3).1
              simp only [Flow.state] at hl3
              rcases andThen_cases _ _ r hf3 with ⟨v, s4, hm4, hf4⟩ | ⟨st, s4, hm4, hr⟩ |
                ⟨st, s4, hm4, hr⟩
              · have hl4 := (verify_spec c E fuel _ _ hm4).1
                simp only [Flow.state] at hl4
                have hl5 := (report_spec c _ _ _ _ r hf4).1
                exact atRestore_of_late c E s s2 _ hn hle he2 hholds
                  ((hl3.ltrans hl4).ltrans hl5)
              · have := (verify_spec c E fuel _ _ hm4).2
                cases this
              · have hl4 := (verify_spec c E fuel _ _ hm4).1
                subst hr
                exact atRestore_of_late c E s s2 _ hn hle he2 hholds (hl3.ltrans hl4)
            · have := (write_spec c E fuel _ _ hm3).2
              cases this
            · have hl3 := (write_spec c E fuel _ _ hm3).1
              subst hr
              exact atRestore_of_late c E s s2 _ hn hle he2 hholds hl3
        · obtain ⟨he2, _, hl, _⟩ := backup_spec c E fuel hn _ _ hm2
          subst hr
          exact ⟨fun _ => ⟨he1.etrans he2, hl⟩, fun hf => by cases hf⟩
        · obtain ⟨_, hg, _, _⟩ := backup_spec c E fuel hn _ _ hm2
          cases hg
      · obtain ⟨he1, _, _, hl⟩ := checkReady_spec c E _ _ hm
        subst hr
        exact ⟨fun _ => ⟨h0.etrans he1, hl⟩, fun hf => by cases hf⟩
      · obtain ⟨_, _, hg, _⟩ := checkReady_spec c E _ _ hm
        cases hg

/-! ## SD_MeasureTest: the label restore_data and what follows it -/

theorem isWait_quiet (e : Event) (h : e.isWait = true) : e.isQuiet = true := by
  cases e with
  | print m => cases m <;> simp_all [Event.isWait, Event.isQuiet]
  | _ => simp_all [Event.isWait, Event.isQuiet]

theorem isDiag_quiet (e : Event) (h : e.isDiag = true) : e.isQuiet = true := by
  cases e with
  | print m => cases m <;> simp_all [Event.isDiag, Msg.isDiag, Event.isQuiet]
  | _ => simp_all [Event.isDiag, Event.isQuiet]

/-- The restore step: it announces itself, takes `0x0A` off every byte of the backup
buffer, and calls `SD_WriteBlocks` once.  Either the readiness wait of that call
failed, the status is `HAL_TIMEOUT` and the card is as it was, or the driver write was
called once, with the restored buffer, and the card holds what that write stored;
the status is that of the write if it failed, else that of the final wait. -/
theorem restore_spec (c : Config) (E : Env) (fuel : Nat) (st0 : HAL_StatusTypeDef)
    (s : State) (st : HAL_StatusTypeDef) (s' : State)
    (hn : c.SD_TEST_BLOCKS ≠ 0) (hle : c.SD_TEST_BLOCKS ≤ 256)
    (h : SD_MeasureTest.restore_data c E fuel st0 s = Except.ok (st, s')) :
    ∃ tail, s'.log = tail ++ Event.print Msg.restoreBegin :: s.log ∧
      s'.mem sd_backup_buf = forUpTo (c.SD_TEST_BLOCKS * SD_BLOCK_SIZE)
        (fun i buf => buf.set i (sub8 (buf.getD i 0) 0x0A)) (s.mem sd_backup_buf) ∧
      ((st = HAL_TIMEOUT ∧ (∀ e ∈ tail, e.isQuiet = true) ∧ s'.card = s.card) ∨
       (∃ r A B,
          tail = A ++ Event.xfer Dir.write sd_backup_buf c.SD_TEST_BLOCK_START
            c.SD_TEST_BLOCKS c.SD_TIMEOUT_MS r :: B ∧
          (∀ e ∈ A, e.isQuiet = true) ∧ (∀ e ∈ B, e.isQuiet = true) ∧
          s'.card = cardWrite s.card c.SD_TEST_BLOCK_START c.SD_TEST_BLOCKS
            (patch r.noise (forUpTo (c.SD_TEST_BLOCKS * SD_BLOCK_SIZE)
              (fun i buf => buf.set i (sub8 (buf.getD i 0) 0x0A)) (s.mem sd_backup_buf))) ∧
          (r.status ≠ HAL_OK → st = r.status) ∧
          (r.status = HAL_OK → st = HAL_OK ∨ st = HAL_TIMEOUT))) := by
  unfold SD_MeasureTest.restore_data at h
  simp only [mul32_blocks _ hle] at h
  generalize hs0 : (HAL_GetTick E
    { printf Msg.restoreBegin s with
      mem := setBuf (printf Msg.restoreBegin s).mem sd_backup_buf
        (forUpTo (c.SD_TEST_BLOCKS * SD_BLOCK_SIZE)
          (fun i buf => buf.set i (sub8 (buf.getD i 0) 0x0A))
          ((printf Msg.restoreBegin s).mem sd_backup_buf)) }) = t0 at h
  obtain ⟨tick_start, s0⟩ := t0
  have hlog0 : s0.log = Event.print Msg.restoreBegin :: s.log := by
    have := congrArg (fun t => t.2.log) hs0
    exact this.symm
  have hcard0 : s0.card = s.card := by
    have := congrArg (fun t => t.2.card) hs0
    exact this.symm
  have hmem0 : s0.mem sd_backup_buf = forUpTo (c.SD_TEST_BLOCKS * SD_BLOCK_SIZE)
      (fun i buf => buf.set i (sub8 (buf.getD i 0) 0x0A)) (s.mem sd_backup_buf) := by
    have := congrArg (fun t => t.2.mem sd_backup_buf) hs0
    simp only [HAL_GetTick, setBuf, if_true, printf] at this
    exact this.symm
  simp only at h
  split at h
  · cases h
  · rename_i st1 s1 hwr
    -- what follows the call of SD_WriteBlocks logs quiet events and keeps the card
    have htail : Frame Event.isQuiet s1 s' ∧ (st1 ≠ HAL_OK → st = st1) ∧
        (st1 = HAL_OK → st = HAL_OK ∨ st = HAL_TIMEOUT) := by
      split at h
      · rename_i hst1
        cases h
        exact ⟨((errorHandler_frame E _ s1).mono isDiag_quiet).trans
          (Frame.print _ _ (by rfl)), fun _ => rfl, fun h1 => absurd h1 hst1⟩
      · rename_i hst1
        have hst1 : st1 = HAL_OK := by
          by_contra hne
          exact hst1 hne
        split at h
        · cases h
        · rename_i st2 s2 hw2
          obtain ⟨hf2, hs2⟩ := waitReady_frame c E fuel _ _ _ _ hw2
          have hf2 := hf2.mono isWait_quiet
          split at h
          · cases h
            refine ⟨hf2.trans (Frame.print _ _ (by rfl)), fun h1 => absurd hst1 h1, fun _ => hs2⟩
          · cases h
            refine ⟨?_, fun h1 => absurd hst1 h1, fun _ => hs2⟩
            refine (hf2.trans (Frame.tick _ E _)).trans ?_
            split
            · exact (Frame.print _ _ (by rfl)).trans (Frame.print _ _ (by rfl))
            · exact Frame.print _ _ (by rfl)
    obtain ⟨⟨_, hcard', hmem', _, evsT, hlogT, hquietT⟩, hstF, hstO⟩ := htail
    rcases writeBlocks_cases c E fuel _ _ _ _ s0 st1 s1 hwr with
      ⟨hbad, _, _⟩ | ⟨_, _, _, hst1, hw⟩ | ⟨buf', sw, hp, _, hw, hst1, hs1⟩
    · rcases hbad with h1 | h1
      · cases h1
      · exact absurd h1 hn
    · obtain ⟨hfw, hsw⟩ := waitReady_frame c E fuel _ _ _ _ hw
      obtain ⟨_, hcw, _, _, wevs, hwl, hwq⟩ := hfw.mono isWait_quiet
      obtain ⟨_, _, hmw0, _, _⟩ := hfw
      refine ⟨evsT ++ wevs, by rw [hlogT, hwl, hlog0]; simp,
        by rw [hmem', hmw0, hmem0], Or.inl ⟨?_, ?_, ?_⟩⟩
      · rw [hstF hst1]
        rcases hsw with h1 | h1
        · exact absurd h1 hst1
        · exact h1
      · intro e he
        rcases List.mem_append.mp he with h1 | h1
        · exact hquietT e h1
        · exact hwq e h1
      · rw [hcard', hcw, hcard0]
    · cases hp
      obtain ⟨hfw, _⟩ := waitReady_frame c E fuel _ _ _ _ hw
      obtain ⟨_, hcw, hmw, _, wevs, hwl, hwq⟩ := hfw.mono isWait_quiet
      obtain ⟨diag, hl, hd, _, _⟩ := log_after_transfer E "写入"
        (Msg.writeBlocksFail (E.xfer sw.nXfer).status)
        (Event.xfer Dir.write sd_backup_buf c.SD_TEST_BLOCK_START c.SD_TEST_BLOCKS
          c.SD_TIMEOUT_MS (E.xfer sw.nXfer))
        ((E.xfer sw.nXfer).status ≠ HAL_OK ∧ c.DEBUG = true) sw
        (HAL_SD_WriteBlocks E sd_backup_buf c.SD_TEST_BLOCK_START c.SD_TEST_BLOCKS
          c.SD_TIMEOUT_MS (__disable_irq sw)).2 rfl
      obtain ⟨f1, f2, _⟩ := after_transfer_fields E "写入"
        (Msg.writeBlocksFail (E.xfer sw.nXfer).status)
        ((E.xfer sw.nXfer).status ≠ HAL_OK ∧ c.DEBUG = true)
        (HAL_SD_WriteBlocks E sd_backup_buf c.SD_TEST_BLOCK_START c.SD_TEST_BLOCKS
          c.SD_TIMEOUT_MS (__disable_irq sw)).2
      rw [← hs1] at hl f1 f2
      have hm1 : s1.mem = s0.mem := by
        rw [f2]
        show sw.mem = s0.mem
        exact hmw
      refine ⟨evsT ++ Event.irqOn :: diag ++ Event.xfer Dir.write sd_backup_buf
        c.SD_TEST_BLOCK_START c.SD_TEST_BLOCKS c.SD_TIMEOUT_MS (E.xfer sw.nXfer) ::
        Event.irqOff :: wevs, by rw [hlogT, hl, hwl, hlog0]; simp,
        by rw [hmem', hm1, hmem0],
        Or.inr ⟨E.xfer sw.nXfer, evsT ++ Event.irqOn :: diag, Event.irqOff :: wevs,
          by simp, ?_, ?_, ?_, ?_, ?_⟩⟩
      · intro e he
        simp only [List.mem_append, List.mem_cons] at he
        rcases he with h1 | h1 | h1
        · exact hquietT e h1
        · subst h1; rfl
        · rcases hd e h1 with h2 | h2
          · subst h2; rfl
          · exact isDiag_quiet e h2
      · intro e he
        simp only [List.mem_cons] at he
        rcases he with h1 | h1
        · subst h1; rfl
        · exact hwq e h1
      · rw [hcard', f1]
        show cardWrite sw.card _ _ (patch _ (sw.mem sd_backup_buf)) = _
        rw [hcw, hcard0, hmw, hmem0]
        rfl
      · intro hne
        rw [hstF (by rw [hst1]; exact hne), hst1]
      · intro hok
        exact hstO (by rw [hst1]; exact hok)

theorem takeWhile_until (m : Event) (tail rest : List Event)
    (h : ∀ e ∈ tail, e ≠ m) :
    (tail ++ m :: rest).takeWhile (fun e => e != m) = tail := by
  induction tail with
  | nil => simp [List.takeWhile]
  | cons a t ih =>
    have ha : a ≠ m := h a (List.mem_cons_self _ _)
    have := ih (fun e he => h e (List.mem_cons_of_mem _ he))
    have hb : (a != m) = true := by simpa using ha
    rw [List.cons_append, List.takeWhile_cons, hb, if_pos rfl, this]

theorem isQuiet_ne_marker (e : Event) (h : e.isQuiet = true) :
    e ≠ Event.print Msg.restoreBegin := by
  intro he
  subst he
  simp [Event.isQuiet] at h

theorem isQuiet_not_xfer (e : Event) (h : e.isQuiet = true) : e.isXfer = false := by
  cases e <;> simp_all [Event.isQuiet, Event.isXfer]

theorem cardWrite_getD (card : Nat → Nat) (blk n : Nat) (data : List Nat) (i : Nat)
    (hi : i < n * SD_BLOCK_SIZE) :
    cardWrite card blk n data (blk * SD_BLOCK_SIZE + i) = data.getD i 0 := by
  unfold cardWrite
  rw [if_pos ⟨Nat.le_add_right _ _, by omega⟩, Nat.add_sub_cancel_left]

/-- The run as a whole: either `SD_MeasureTest` returned above the label
`restore_data`, or it went through the restore step. -/
theorem measureTest_cases (c : Config) (E : Env) (fuel : Nat) (s : State)
    (st : HAL_StatusTypeDef) (s' : State)
    (h : SD_MeasureTest c E fuel s = Except.ok (st, s')) :
    (st ≠ HAL_OK ∧ Early s s') ∨
    (∃ st0 sr, AtRestore c E s sr ∧
      SD_MeasureTest.restore_data c E fuel st0 sr = Except.ok (st, s')) := by
  unfold SD_MeasureTest at h
  split at h
  · cases h
  · rename_i st1 s1 hb
    cases h
    obtain ⟨h1, _⟩ := body_spec c E fuel s _ hb
    obtain ⟨he, hst⟩ := h1 rfl
    exact Or.inl ⟨hst _ rfl, he⟩
  · rename_i st1 s1 hb
    obtain ⟨_, h2⟩ := body_spec c E fuel s _ hb
    exact Or.inr ⟨st1, s1, h2 rfl, h⟩
  · rename_i st1 s1 hb
    obtain ⟨_, h2⟩ := body_spec c E fuel s _ hb
    exact Or.inr ⟨st1, s1, h2 rfl, h⟩

theorem isEarly_facts (e : Event) (h : e.isEarly = true) :
    e ≠ Event.print Msg.prepareWrite ∧ e ≠ Event.print Msg.restoreBegin ∧
    e.isWrite = false := by
  refine ⟨?_, ?_, ?_⟩
  · intro he; subst he; simp [Event.isEarly] at h
  · intro he; subst he; simp [Event.isEarly] at h
  · cases e with
    | xfer d _ _ _ _ _ => cases d <;> simp_all [Event.isEarly, Event.isWrite]
    | _ => simp [Event.isWrite]

/-- A restore step whose driver write succeeded: the write stored the restored
buffer on the card, and the status is that of the final readiness wait. -/
theorem good_restore (c : Config) (E : Env) (fuel : Nat) (st0 : HAL_StatusTypeDef)
    (sr : State) (st : HAL_StatusTypeDef) (s' : State)
    (hn : c.SD_TEST_BLOCKS ≠ 0) (hle : c.SD_TEST_BLOCKS ≤ 256)
    (hres : SD_MeasureTest.restore_data c E fuel st0 sr = Except.ok (st, s'))
    (hrestore : restoreWriteSucceeded c s'.log) :
    s'.card = cardWrite sr.card c.SD_TEST_BLOCK_START c.SD_TEST_BLOCKS
      (forUpTo (c.SD_TEST_BLOCKS * SD_BLOCK_SIZE)
        (fun i buf => buf.set i (sub8 (buf.getD i 0) 0x0A)) (sr.mem sd_backup_buf)) ∧
    (st = HAL_OK ∨ st = HAL_TIMEOUT) := by
  obtain ⟨tail, hlog, _, hcases⟩ := restore_spec c E fuel st0 sr st s' hn hle hres
  unfold restoreWriteSucceeded at hrestore
  rw [hlog] at hrestore
  rcases hcases with ⟨_, hq, _⟩ | ⟨r, A, B, htail, hA, hB, hcard, _, hok⟩
  · rw [takeWhile_until _ _ _ (fun e he => isQuiet_ne_marker e (hq e he))] at hrestore
    have := isQuiet_not_xfer _ (hq _ hrestore)
    simp [Event.isXfer] at this
  · have hall : ∀ e ∈ tail, e ≠ Event.print Msg.restoreBegin := by
      intro e he
      rw [htail] at he
      simp only [List.mem_append, List.mem_cons] at he
      rcases he with h1 | h1 | h1
      · exact isQuiet_ne_marker e (hA e h1)
      · subst h1; intro h2; cases h2
      · exact isQuiet_ne_marker e (hB e h1)
    rw [takeWhile_until _ _ _ hall, htail] at hrestore
    simp only [List.mem_append, List.mem_cons] at hrestore
    have hr : r = ⟨HAL_OK, []⟩ := by
      rcases hrestore with h1 | h1 | h1
      · have := isQuiet_not_xfer _ (hA _ h1)
        simp [Event.isXfer] at this
      · cases h1; rfl
      · have := isQuiet_not_xfer _ (hB _ h1)
        simp [Event.isXfer] at this
    subst hr
    exact ⟨hcard, hok rfl⟩

/-- Whenever the driver write of the restore step succeeds, `SD_MeasureTest` returns
`HAL_OK` or, if the final readiness wait fails, `HAL_TIMEOUT`, whatever happened in
the write and verify steps. -/
theorem status_after_good_restore (c : Config) (E : Env) (fuel : Nat) (s : State)
    (st : HAL_StatusTypeDef) (s' : State) (hlog : s.log = [])
    (hrun : SD_MeasureTest c E fuel s = Except.ok (st, s'))
    (hrestore : restoreWriteSucceeded c s'.log) : st = HAL_OK ∨ st = HAL_TIMEOUT := by
  rcases measureTest_cases c E fuel s st s' hrun with ⟨_, _, evs, hl, hall⟩ |
    ⟨st0, sr, hat, hres⟩
  · unfold restoreWriteSucceeded at hrestore
    have hmem := List.takeWhile_subset _ hrestore
    rw [hl, hlog, List.append_nil] at hmem
    have := (isEarly_facts _ (hall _ hmem)).2.2
    simp [Event.isWrite] at this
  · exact (good_restore c E fuel st0 sr st s' hat.blocks_pos hat.blocks_le hres hrestore).2

/-- C7 (the code at the failing input): a run in which the first write of the test
data fails returns `HAL_OK`, because the restore step that follows succeeds.  The same
happens to the `HAL_ERROR` that a failed verification assigns to `status`: the code
below the label `restore_data` gives the same result whatever the value of `status` on
arrival, and every run whose restore write succeeds returns `HAL_OK` or, if the final
readiness wait fails, `HAL_TIMEOUT`. -/
theorem C7_status_is_that_of_the_restore_step :
    statusOf (SD_MeasureTest stm32 writeFault 3 boot) = some HAL_OK ∧
    Event.print (Msg.multiWriteFail 1 HAL_ERROR) ∈
      traceOf (SD_MeasureTest stm32 writeFault 3 boot) ∧
    (∀ (c : Config) (ve wt rt : Nat) (s : State), ve ≠ 0 →
      SD_MeasureTest.report c ve wt rt s =
        Except.ok (Flow.next HAL_ERROR (printf (Msg.verifyFail ve) s))) ∧
    (∀ (c : Config) (E : Env) (fuel : Nat) (st0 : HAL_StatusTypeDef) (sr : State),
      SD_MeasureTest.restore_data c E fuel st0 sr =
        SD_MeasureTest.restore_data c E fuel HAL_OK sr) ∧
    (∀ (c : Config) (E : Env) (fuel : Nat) (s : State) (st : HAL_StatusTypeDef)
        (s' : State), s.log = [] → SD_MeasureTest c E fuel s = Except.ok (st, s') →
      restoreWriteSucceeded c s'.log → st = HAL_OK ∨ st = HAL_TIMEOUT) := by
  refine ⟨by decide!, by decide!, ?_, fun _ _ _ _ _ => rfl, status_after_good_restore⟩
  intro c ve wt rt s hve
  simp [SD_MeasureTest.report, hve]

/-- Subtraction on `uint32_t` of two ticks gives the time between them modulo `2 ^ 32`,
whether or not the counter overflowed in between. -/
theorem sub32_ticks (x y : Nat) (h : y ≤ x) : sub32 (x % U32) (y % U32) = (x - y) % U32 := by
  unfold sub32 U32
  omega

theorem waitLoop_sound (c : Config) (E : Env) (T t0 : Nat) :
    ∀ (fuel : Nat) (s : State) (st : HAL_StatusTypeDef) (s' : State),
      SD_WaitReady.loop c E T t0 fuel s = Except.ok (st, s') →
      ∃ n, s'.nPoll = s.nPoll + n ∧
        (∀ j < n, sub32 (E.tick (s.nTick + j) % U32) t0 < T) ∧
        (∀ j, j + 1 < n → E.cardState (s.nPoll + j) ≠ c.HAL_SD_CARD_TRANSFER) ∧
        ((st = HAL_OK ∧ s'.nTick = s.nTick + n ∧
            ∃ m, n = m + 1 ∧ E.cardState (s.nPoll + m) = c.HAL_SD_CARD_TRANSFER) ∨
         (st = HAL_TIMEOUT ∧ s'.nTick = s.nTick + n + 1 ∧
            T ≤ sub32 (E.tick (s.nTick + n) % U32) t0 ∧
            ∀ j < n, E.cardState (s.nPoll + j) ≠ c.HAL_SD_CARD_TRANSFER)) := by
  intro fuel
  induction fuel with
  | zero =>
    intro s st s' h
    simp only [SD_WaitReady.loop, HAL_GetTick] at h
    split at h
    · cases h
    · rename_i hT
      cases h
      exact ⟨0, rfl, by simp, by simp, Or.inr ⟨rfl, rfl, by simpa using hT, by simp⟩⟩
  | succ fuel ih =>
    intro s st s' h
    simp only [SD_WaitReady.loop, HAL_GetTick, HAL_SD_GetCardState] at h
    split at h
    · rename_i hT
      split at h
      · rename_i hc
        cases h
        refine ⟨1, rfl, ?_, by simp, Or.inl ⟨rfl, rfl, 0, rfl, by simpa using hc⟩⟩
        intro j hj
        obtain rfl : j = 0 := by omega
        simpa using hT
      · rename_i hc
        obtain ⟨n, hp, ht, hne, hcase⟩ := ih _ _ _ h
        simp only at hp ht hne hcase
        refine ⟨n + 1, by omega, ?_, ?_, ?_⟩
        · intro j hj
          rcases Nat.eq_zero_or_pos j with rfl | hpos
          · simpa using hT
          · have := ht (j - 1) (by omega)
            rwa [show s.nTick + 1 + (j - 1) = s.nTick + j by omega] at this
        · intro j hj
          rcases Nat.eq_zero_or_pos j with rfl | hpos
          · simpa using hc
          · have := hne (j - 1) (by omega)
            rwa [show s.nPoll + 1 + (j - 1) = s.nPoll + j by omega] at this
        · rcases hcase with ⟨h1, h2, m, h3, h4⟩ | ⟨h1, h2, h3, h4⟩
          · refine Or.inl ⟨h1, by omega, m + 1, by omega, ?_⟩
            rwa [show s.nPoll + 1 + m = s.nPoll + (m + 1) by omega] at h4
          · refine Or.inr ⟨h1, by omega, ?_, ?_⟩
            · rwa [show s.nTick + 1 + n = s.nTick + (n + 1) by omega] at h3
            · intro j hj
              rcases Nat.eq_zero_or_pos j with rfl | hpos
              · simpa using hc
              · have := h4 (j - 1) (by omega)
                rwa [show s.nPoll + 1 + (j - 1) = s.nPoll + j by omega] at this
    · rename_i hT
      cases h
      exact ⟨0, rfl, by simp, by simp, Or.inr ⟨rfl, rfl, by simpa using hT, by simp⟩⟩

theorem waitLoop_run (c : Config) (E : Env) (T t0 : Nat) :
    ∀ (k : Nat) (s : State),
      (∀ j < k, sub32 (E.tick (s.nTick + j) % U32) t0 < T ∧
        E.cardState (s.nPoll + j) ≠ c.HAL_SD_CARD_TRANSFER) →
      (sub32 (E.tick (s.nTick + k) % U32) t0 < T →
        E.cardState (s.nPoll + k) = c.HAL_SD_CARD_TRANSFER →
        ∀ fuel, k < fuel → ∃ s', SD_WaitReady.loop c E T t0 fuel s = Except.ok (HAL_OK, s') ∧
          s'.nPoll = s.nPoll + k + 1 ∧ s'.nTick = s.nTick + k + 1) ∧
      (T ≤ sub32 (E.tick (s.nTick + k) % U32) t0 →
        ∀ fuel, k ≤ fuel → ∃ s', SD_WaitReady.loop c E T t0 fuel s = Except.ok (HAL_TIMEOUT, s') ∧
          s'.nPoll = s.nPoll + k ∧ s'.nTick = s.nTick + k + 1) := by
  intro k
  induction k with
  | zero =>
    intro s _
    constructor
    · intro hT hc fuel hf
      obtain ⟨f, rfl⟩ : ∃ f, fuel = f + 1 := ⟨fuel - 1, by omega⟩
      simp only [Nat.add_zero] at hT hc
      simp only [SD_WaitReady.loop, HAL_GetTick, HAL_SD_GetCardState, hT, hc, if_true]
      exact ⟨_, rfl, rfl, rfl⟩
    · intro hT fuel _
      simp only [Nat.add_zero] at hT
      have hT' : ¬ sub32 (E.tick s.nTick % U32) t0 < T := by omega
      cases fuel with
      | zero =>
        simp only [SD_WaitReady.loop, HAL_GetTick, hT', if_false]
        exact ⟨_, rfl, rfl, rfl⟩
      | succ f =>
        simp only [SD_WaitReady.loop, HAL_GetTick, hT', if_false]
        exact ⟨_, rfl, rfl, rfl⟩
  | succ k ih =>
    intro s hpre
    have h0 := hpre 0 (by omega)
    simp only [Nat.add_zero] at h0
    have hpre' : ∀ j < k, sub32 (E.tick (s.nTick + 1 + j) % U32) t0 < T ∧
        E.cardState (s.nPoll + 1 + j) ≠ c.HAL_SD_CARD_TRANSFER := by
      intro j hj
      have := hpre (j + 1) (by omega)
      rwa [show s.nTick + (j + 1) = s.nTick + 1 + j by omega,
        show s.nPoll + (j + 1) = s.nPoll + 1 + j by omega] at this
    have hi := ih (HAL_SD_GetCardState E (HAL_GetTick E s).2).2 hpre'
    constructor
    · intro hT hc fuel hf
      obtain ⟨f, rfl⟩ : ∃ f, fuel = f + 1 := ⟨fuel - 1, by omega⟩
      rw [show s.nTick + (k + 1) = s.nTick + 1 + k by omega] at hT
      rw [show s.nPoll + (k + 1) = s.nPoll + 1 + k by omega] at hc
      obtain ⟨s', he, hp, ht⟩ := hi.1 hT hc f (by omega)
      refine ⟨s', ?_, ?_, ?_⟩
      · simp only [SD_WaitReady.loop, HAL_GetTick, HAL_SD_GetCardState, h0.1, h0.2, if_true,
          if_false]
        exact he
      · rw [hp]; simp only [HAL_SD_GetCardState, HAL_GetTick]; omega
      · rw [ht]; simp only [HAL_SD_GetCardState, HAL_GetTick]; omega
    · intro hT fuel hf
      obtain ⟨f, rfl⟩ : ∃ f, fuel = f + 1 := ⟨fuel - 1, by omega⟩
      rw [show s.nTick + (k + 1) = s.nTick + 1 + k by omega] at hT
      obtain ⟨s', he, hp, ht⟩ := hi.2 hT f (by omega)
      refine ⟨s', ?_, ?_, ?_⟩
      · simp only [SD_WaitReady.loop, HAL_GetTick, HAL_SD_GetCardState, h0.1, h0.2, if_true,
          if_false]
        exact he
      · rw [hp]; simp only [HAL_SD_GetCardState, HAL_GetTick]; omega
      · rw [ht]; simp only [HAL_SD_GetCardState, HAL_GetTick]; omega

/-- C11: the deadline test of `SD_WaitReady` compares the time since the start of the
call, taken modulo `2 ^ 32`, with the timeout, for every start tick, every timeout and
every tick sequence: when the tick reads do not decrease the tested value is the
elapsed time modulo `2 ^ 32`, also when the 32-bit counter overflowed in between.  In
a call whose first `k` tests pass with a card that is not in the transfer state: if
test `k` passes too and poll `k` sees the transfer state, the call returns `HAL_OK`
after `k + 1` polls; if test `k` fails, the call returns `HAL_TIMEOUT` after `k` polls.
Every call that returns has polled only after a passed test, returns `HAL_OK` exactly
when one of its polls saw the transfer state (the last one), and `HAL_TIMEOUT` exactly
when none did and the test after the last poll failed. -/
theorem C11_wait_deadline_is_wraparound_safe (c : Config) (E : Env) (T : Nat) (s : State)
    (k : Nat)
    (hpolls : ∀ j < k, elapsedAt E s j < T ∧
      E.cardState (s.nPoll + j) ≠ c.HAL_SD_CARD_TRANSFER) :
    (∀ j, E.tick s.nTick ≤ E.tick (s.nTick + 1 + j) →
      elapsedAt E s j = (E.tick (s.nTick + 1 + j) - E.tick s.nTick) % U32) ∧
    (elapsedAt E s k < T → E.cardState (s.nPoll + k) = c.HAL_SD_CARD_TRANSFER →
      ∀ fuel, k < fuel → ∃ s', SD_WaitReady c E fuel T s = Except.ok (HAL_OK, s') ∧
        s'.nPoll = s.nPoll + k + 1) ∧
    (T ≤ elapsedAt E s k →
      ∀ fuel, k ≤ fuel → ∃ s', SD_WaitReady c E fuel T s = Except.ok (HAL_TIMEOUT, s') ∧
        s'.nPoll = s.nPoll + k) ∧
    (∀ fuel st s', SD_WaitReady c E fuel T s = Except.ok (st, s') →
      ∃ n, s'.nPoll = s.nPoll + n ∧ (∀ j < n, elapsedAt E s j < T) ∧
        (∀ j, j + 1 < n → E.cardState (s.nPoll + j) ≠ c.HAL_SD_CARD_TRANSFER) ∧
        (st = HAL_OK ↔ ∃ j < n, E.cardState (s.nPoll + j) = c.HAL_SD_CARD_TRANSFER) ∧
        (st = HAL_TIMEOUT ↔ (T ≤ elapsedAt E s n ∧
          ∀ j < n, E.cardState (s.nPoll + j) ≠ c.HAL_SD_CARD_TRANSFER))) := by
  have hrun := waitLoop_run c E T (E.tick s.nTick % U32) k (HAL_GetTick E s).2 hpolls
  refine ⟨fun j hj => sub32_ticks _ _ hj, ?_, ?_, ?_⟩
  · intro hT hc fuel hf
    obtain ⟨s', he, hp, _⟩ := hrun.1 hT hc fuel hf
    refine ⟨s', ?_, hp⟩
    unfold SD_WaitReady
    simp only [HAL_GetTick] at he ⊢
    rw [he]
    simp
  · intro hT fuel hf
    obtain ⟨s', he, hp, _⟩ := hrun.2 hT fuel hf
    by_cases hd : c.DEBUG = true
    · refine ⟨printf (Msg.waitReadyTimeout T) s', ?_, hp⟩
      unfold SD_WaitReady
      simp only [HAL_GetTick] at he ⊢
      rw [he]
      simp [hd]
    · refine ⟨s', ?_, hp⟩
      unfold SD_WaitReady
      simp only [HAL_GetTick] at he ⊢
      rw [he]
      simp [hd]
  · intro fuel st s' h
    unfold SD_WaitReady at h
    simp only at h
    split at h
    · cases h
    · rename_i st1 s1 hl
      obtain ⟨n, hp, ht, hne, hcase⟩ := waitLoop_sound c E T _ fuel _ _ _ hl
      have hst : st = st1 ∧ s'.nPoll = s1.nPoll := by
        split at h <;> cases h <;> exact ⟨rfl, rfl⟩
      obtain ⟨rfl, hp'⟩ := hst
      refine ⟨n, by rw [hp', hp]; rfl, ht, hne, ?_, ?_⟩
      · rcases hcase with ⟨h1, _, m, h3, h4⟩ | ⟨h1, _, _, h4⟩
        · exact ⟨fun _ => ⟨m, by omega, h4⟩, fun _ => h1⟩
        · refine ⟨fun h0 => ?_, fun ⟨j, hj, hc⟩ => absurd hc (h4 j hj)⟩
          rw [h1] at h0
          cases h0
      · rcases hcase with ⟨h1, _, m, h3, h4⟩ | ⟨h1, _, h3, h4⟩
        · refine ⟨fun h0 => ?_, fun ⟨_, hall⟩ => absurd h4 (hall m (by omega))⟩
          rw [h1] at h0
          cases h0
        · exact ⟨fun _ => ⟨h3, h4⟩, fun _ => h1⟩

/-- Witness of C11: the tick counter overflows from `0xFFFFFFFF` to 0 during a wait of
3 ms on a card that stays busy; the call polls twice and times out at the third test,
3 ms after its start. -/
theorem C11_wait_deadline_is_wraparound_safe_witness :
    (∀ j < 2, elapsedAt wrapping boot j < 3 ∧
      wrapping.cardState (boot.nPoll + j) ≠ stm32.HAL_SD_CARD_TRANSFER) ∧
    wrapping.tick (boot.nTick + 1) % U32 = 4294967295 ∧
    wrapping.tick (boot.nTick + 2) % U32 = 0 ∧
    elapsedAt wrapping boot 1 = 2 ∧ 3 ≤ elapsedAt wrapping boot 2 ∧
    ∃ s', SD_WaitReady stm32 wrapping 2 3 boot = Except.ok (HAL_TIMEOUT, s') ∧
      s'.nPoll = boot.nPoll + 2 :=
  have hpolls : ∀ j < 2, elapsedAt wrapping boot j < 3 ∧
      wrapping.cardState (boot.nPoll + j) ≠ stm32.HAL_SD_CARD_TRANSFER := by decide
  have h3 : 3 ≤ elapsedAt wrapping boot 2 := by decide
  ⟨hpolls, by decide, by decide, by decide, h3,
   (C11_wait_deadline_is_wraparound_safe stm32 wrapping 3 boot 2 hpolls).2.2.1 h3 2
     (Nat.le_refl 2)⟩

/-! ## SD_MeasureTest: the throughput report -/

/-- The report after a verification without mismatch, for non-zero times: the four
messages and the numbers in them. -/
theorem report_pass (c : Config) (wt rt : Nat) (s : State) (hle : c.SD_TEST_BLOCKS ≤ 256)
    (hw : wt ≠ 0) (hr : rt ≠ 0) :
    SD_MeasureTest.report c 0 wt rt s =
      Except.ok (Flow.next HAL_OK
        (printf (Msg.totalData (c.SD_TEST_BLOCKS * 512 * 4 / 1024) wt rt)
          (printf (Msg.readSpeed
              (c.SD_TEST_BLOCKS * 512 * 4 / 1024 * 1000 / rt / 1024)
              (c.SD_TEST_BLOCKS * 512 * 4 / 1024 * 1000 / rt % 1024 * 10 / 1024)
              (c.SD_TEST_BLOCKS * 512 * 4 / 1024 * 1000 / rt / 10)
              (c.SD_TEST_BLOCKS * 512 * 4 / 1024 * 1000 / rt % 10))
            (printf (Msg.writeSpeed
                (c.SD_TEST_BLOCKS * 512 * 4 / 1024 * 1000 / wt / 1024)
                (c.SD_TEST_BLOCKS * 512 * 4 / 1024 * 1000 / wt % 1024 * 10 / 1024)
                (c.SD_TEST_BLOCKS * 512 * 4 / 1024 * 1000 / wt / 10)
                (c.SD_TEST_BLOCKS * 512 * 4 / 1024 * 1000 / wt % 10))
              (printf Msg.verifyPass s))))) := by
  have h1 : mul32 (mul32 c.SD_TEST_BLOCKS SD_BLOCK_SIZE) 4 = c.SD_TEST_BLOCKS * 512 * 4 := by
    unfold mul32 SD_BLOCK_SIZE U32
    omega
  have h2 : mul32 (c.SD_TEST_BLOCKS * 512 * 4 / 1024) 1000 =
      c.SD_TEST_BLOCKS * 512 * 4 / 1024 * 1000 := by
    unfold mul32 U32
    omega
  have h3 : ∀ k : Nat, mul32 (k % 1024) 10 = k % 1024 * 10 := by
    intro k
    unfold mul32 U32
    omega
  simp only [SD_MeasureTest.report, udiv32, h1, h2, h3, hw, hr, if_true, if_false]

/-- The two parts of the MB/s figure are the quotient by 1024 with one decimal digit. -/
theorem mbps_figure (k : Nat) :
    tenths (k / 1024) (k % 1024 * 10 / 1024) = k * 10 / 1024 ∧ k % 1024 * 10 / 1024 < 10 := by
  unfold tenths
  omega

/-- The two parts of the KB/s figure put the last digit of `k` behind the point. -/
theorem kbps_figure (k : Nat) : tenths (k / 10) (k % 10) = k ∧ k % 10 < 10 := by
  unfold tenths
  omega

/-- C12 (the code): for every block count up to 256 and non-zero times the report
computes `total_kb = N * 512 * 4 / 1024` and `write_speed_kbps = total_kb * 1000 / t`,
truncated, which is 512 for 4 × 131072 bytes in 1000 ms.  The MB/s figure that it
prints is that number divided by 1024 with one decimal digit.  The KB/s figure is
printed as `kbps / 10` point `kbps % 10`: it reads as a tenth of `write_speed_kbps`,
not as `write_speed_kbps` with one decimal digit.  For 4 × 131072 bytes in 1000 ms
the line reads `0.5 MB/s (51.2 KB/s)`, while the throughput is 512.0 KB/s. -/
theorem C12_kbps_figure_is_a_tenth_of_the_throughput :
    (∀ (c : Config) (wt rt : Nat) (s : State), c.SD_TEST_BLOCKS ≤ 256 → wt ≠ 0 → rt ≠ 0 →
      ∃ s1, SD_MeasureTest.report c 0 wt rt s = Except.ok (Flow.next HAL_OK s1) ∧
        s1.log =
          Event.print (Msg.totalData (c.SD_TEST_BLOCKS * 512 * 4 / 1024) wt rt) ::
          Event.print (Msg.readSpeed
            (c.SD_TEST_BLOCKS * 512 * 4 / 1024 * 1000 / rt / 1024)
            (c.SD_TEST_BLOCKS * 512 * 4 / 1024 * 1000 / rt % 1024 * 10 / 1024)
            (c.SD_TEST_BLOCKS * 512 * 4 / 1024 * 1000 / rt / 10)
            (c.SD_TEST_BLOCKS * 512 * 4 / 1024 * 1000 / rt % 10)) ::
          Event.print (Msg.writeSpeed
            (c.SD_TEST_BLOCKS * 512 * 4 / 1024 * 1000 / wt / 1024)
            (c.SD_TEST_BLOCKS * 512 * 4 / 1024 * 1000 / wt % 1024 * 10 / 1024)
            (c.SD_TEST_BLOCKS * 512 * 4 / 1024 * 1000 / wt / 10)
            (c.SD_TEST_BLOCKS * 512 * 4 / 1024 * 1000 / wt % 10)) ::
          Event.print Msg.verifyPass :: s.log) ∧
    (∀ k : Nat, tenths (k / 1024) (k % 1024 * 10 / 1024) = k * 10 / 1024 ∧
      k % 1024 * 10 / 1024 < 10) ∧
    (∀ k : Nat, tenths (k / 10) (k % 10) = k ∧ k % 10 < 10 ∧
      (k ≠ 0 → tenths (k / 10) (k % 10) ≠ 10 * k)) ∧
    (stm32Max.SD_TEST_BLOCKS * 512 * 4 = 4 * 131072 ∧
      stm32Max.SD_TEST_BLOCKS * 512 * 4 / 1024 * 1000 / 1000 = 512 ∧
      SD_MeasureTest.report stm32Max 0 1000 1000 boot =
        Except.ok (Flow.next HAL_OK
          (printf (Msg.totalData 512 1000 1000)
            (printf (Msg.readSpeed 0 5 51 2)
              (printf (Msg.writeSpeed 0 5 51 2) (printf Msg.verifyPass boot))))) ∧
      tenths 0 5 = 512 * 10 / 1024 ∧ tenths 51 2 = 512 ∧ tenths 51 2 ≠ 10 * 512) := by
  refine ⟨?_, mbps_figure, ?_, by decide, by decide, ?_, by decide, by decide, by decide⟩
  · intro c wt rt s hle hw hr
    exact ⟨_, report_pass c wt rt s hle hw hr, rfl⟩
  · intro k
    refine ⟨(kbps_figure k).1, (kbps_figure k).2, fun hk => ?_⟩
    rw [(kbps_figure k).1]
    omega
  · exact report_pass stm32Max 1000 1000 boot (by decide) (by decide) (by decide)

/-! ## SD_MeasureTest on hardware on which nothing fails -/

/-- A wait whose first test passes and whose first poll sees the transfer state. -/
theorem wait_first_poll (c : Config) (E : Env) (fuel T : Nat) (s : State) (hf : fuel ≠ 0)
    (hT : sub32 (E.tick (s.nTick + 1) % U32) (E.tick s.nTick % U32) < T)
    (hc : E.cardState s.nPoll = c.HAL_SD_CARD_TRANSFER) :
    SD_WaitReady c E fuel T s = Except.ok (HAL_OK,
      { s with nTick := s.nTick + 2, nPoll := s.nPoll + 1,
               log := Event.poll (E.cardState s.nPoll) :: s.log }) := by
  obtain ⟨f, rfl⟩ : ∃ f, fuel = f + 1 := ⟨fuel - 1, by omega⟩
  simp [SD_WaitReady, SD_WaitReady.loop, HAL_GetTick, HAL_SD_GetCardState, hT, hc]

theorem readBlocks_smooth (c : Config) (E : Env) (fuel buf blk n : Nat) (s : State)
    (hS : Smooth c E) (hf : fuel ≠ 0) (hn : n ≠ 0) :
    ∃ s', SD_ReadBlocks c E fuel (some buf) blk n c.SD_TIMEOUT_MS s = Except.ok (HAL_OK, s') ∧
      s'.nTick = s.nTick + 2 := by
  have hw := wait_first_poll c E fuel c.SD_TIMEOUT_MS s hf (hS.tick _) (hS.card _)
  rw [readBlocks_of_wait_ok c E fuel buf blk n _ s _ hn hw]
  simp only [hS.xfer, ne_eq, not_true_eq_false, false_and, if_false]
  exact ⟨_, rfl, rfl⟩

theorem writeBlocks_smooth (c : Config) (E : Env) (fuel buf blk n : Nat) (s : State)
    (hS : Smooth c E) (hf : fuel ≠ 0) (hn : n ≠ 0) :
    ∃ s', SD_WriteBlocks c E fuel (some buf) blk n c.SD_TIMEOUT_MS s = Except.ok (HAL_OK, s') ∧
      s'.nTick = s.nTick + 2 ∧ s'.mem = s.mem ∧
      s'.card = cardWrite s.card blk n (s.mem buf) := by
  have hw := wait_first_poll c E fuel c.SD_TIMEOUT_MS s hf (hS.tick _) (hS.card _)
  rw [writeBlocks_of_wait_ok c E fuel buf blk n _ s _ hn hw]
  simp only [hS.xfer, ne_eq, not_true_eq_false, false_and, if_false]
  refine ⟨_, rfl, rfl, rfl, ?_⟩
  simp only [__enable_irq, HAL_SD_WriteBlocks, __disable_irq, hS.xfer]
  rfl

theorem backupLoop_smooth (c : Config) (E : Env) (fuel : Nat) (hS : Smooth c E)
    (hf : fuel ≠ 0) (hn : c.SD_TEST_BLOCKS ≠ 0) :
    ∀ (rounds : Nat) (s : State),
      ∃ s', SD_MeasureTest.backupLoop c E fuel rounds s = Except.ok (Flow.next () s') ∧
        s'.nTick = s.nTick + 2 * rounds := by
  intro rounds
  induction rounds with
  | zero => intro s; exact ⟨s, rfl, rfl⟩
  | succ rounds ih =>
    intro s
    obtain ⟨s1, h1, t1⟩ := readBlocks_smooth c E fuel sd_backup_buf c.SD_TEST_BLOCK_START
      c.SD_TEST_BLOCKS s hS hf hn
    obtain ⟨s2, h2, t2⟩ := ih s1
    refine ⟨s2, ?_, by omega⟩
    simp only [SD_MeasureTest.backupLoop, h1, ne_eq, not_true_eq_false, if_false]
    exact h2

theorem backup_smooth (c : Config) (E : Env) (fuel : Nat) (s : State) (hS : Smooth c E)
    (hf : fuel ≠ 0) (hn : c.SD_TEST_BLOCKS ≠ 0) :
    ∃ s', SD_MeasureTest.backup c E fuel s =
        Except.ok (Flow.next (sub32 (E.tick (s.nTick + 11) % U32) (E.tick s.nTick % U32)) s') ∧
      s'.nTick = s.nTick + 12 := by
  obtain ⟨s1, h1, t1⟩ := backupLoop_smooth c E fuel hS hf hn 4
    (HAL_GetTick E (printf (Msg.backupBegin (c.SD_TEST_BLOCK_START % U32)
      (sub32 (add32 c.SD_TEST_BLOCK_START c.SD_TEST_BLOCKS) 1)) s)).2
  have hw := wait_first_poll c E fuel (mul32 c.SD_TIMEOUT_MS 15) s1 hf (hS.tick15 _) (hS.card _)
  have t1' : s1.nTick = s.nTick + 9 := by
    rw [t1]; simp only [HAL_GetTick, printf]
  have key : SD_MeasureTest.backup c E fuel s =
      Except.ok (Flow.next (sub32 (E.tick (s.nTick + 11) % U32) (E.tick s.nTick % U32))
        (printf (Msg.backupDone (sub32 (E.tick (s.nTick + 11) % U32) (E.tick s.nTick % U32)))
          { s1 with nTick := s.nTick + 12, nPoll := s1.nPoll + 1,
                    log := Event.poll (E.cardState s1.nPoll) :: s1.log })) := by
    unfold SD_MeasureTest.backup
    simp only []
    rw [h1]
    simp only [Flow.andThen, hw, ne_eq, not_true_eq_false, if_false, HAL_GetTick, t1']
    rfl
  exact ⟨_, key, rfl⟩

theorem synced_of_write (c : Config) (s s' : State) (hm : s'.mem = s.mem)
    (hc : s'.card = cardWrite s.card c.SD_TEST_BLOCK_START c.SD_TEST_BLOCKS
      (s.mem sd_backup_buf)) : Synced c s' := by
  intro i hi
  rw [hc, hm, cardWrite_getD _ _ _ _ _ hi]

theorem writeLoop_smooth (c : Config) (E : Env) (fuel : Nat) (hS : Smooth c E)
    (hf : fuel ≠ 0) (hn : c.SD_TEST_BLOCKS ≠ 0) :
    ∀ (rounds j : Nat) (s : State),
      ∃ s', SD_MeasureTest.writeLoop c E fuel rounds j s = Except.ok (Flow.next () s') ∧
        s'.nTick = s.nTick + 2 * rounds ∧ (rounds ≠ 0 ∨ Synced c s → Synced c s') := by
  intro rounds
  induction rounds with
  | zero =>
    intro j s
    exact ⟨s, rfl, rfl, fun h => h.elim (fun h0 => absurd rfl h0) id⟩
  | succ rounds ih =>
    intro j s
    obtain ⟨s1, h1, t1, m1, c1⟩ := writeBlocks_smooth c E fuel sd_backup_buf
      c.SD_TEST_BLOCK_START c.SD_TEST_BLOCKS s hS hf hn
    obtain ⟨s2, h2, t2, y2⟩ := ih (j + 1) s1
    refine ⟨s2, ?_, by omega, fun _ => y2 (Or.inr (synced_of_write c s s1 m1 c1))⟩
    simp only [SD_MeasureTest.writeLoop, h1, ne_eq, not_true_eq_false, if_false]
    exact h2

theorem write_smooth (c : Config) (E : Env) (fuel : Nat) (s : State) (hS : Smooth c E)
    (hf : fuel ≠ 0) (hn : c.SD_TEST_BLOCKS ≠ 0) :
    ∃ s', SD_MeasureTest.write c E fuel s =
        Except.ok (Flow.next (sub32 (E.tick (s.nTick + 11) % U32) (E.tick s.nTick % U32)) s') ∧
      Synced c s' := by
  obtain ⟨s1, h1, t1, y1⟩ := writeLoop_smooth c E fuel hS hf hn 4 0
    (HAL_GetTick E (printf Msg.writeBegin s)).2
  have hw := wait_first_poll c E fuel (mul32 c.SD_TIMEOUT_MS 15) s1 hf (hS.tick15 _) (hS.card _)
  have t1' : s1.nTick = s.nTick + 9 := by
    rw [t1]; simp only [HAL_GetTick, printf]
  have key : SD_MeasureTest.write c E fuel s =
      Except.ok (Flow.next (sub32 (E.tick (s.nTick + 11) % U32) (E.tick s.nTick % U32))
        (printf (Msg.writeDone (sub32 (E.tick (s.nTick + 11) % U32) (E.tick s.nTick % U32)))
          { s1 with nTick := s.nTick + 12, nPoll := s1.nPoll + 1,
                    log := Event.poll (E.cardState s1.nPoll) :: s1.log })) := by
    unfold SD_MeasureTest.write
    simp only []
    rw [h1]
    simp only [Flow.andThen, hw, ne_eq, not_true_eq_false, if_false, HAL_GetTick, t1']
    rfl
  exact ⟨_, key, y1 (Or.inl (by decide))⟩

/-- The comparison of a block that reads as the backup buffer holds it counts nothing
and prints nothing. -/
theorem compareLoop_equal (c : Config) (i ve : Nat) (s : State) :
    ∀ n : Nat,
      (∀ j < n, (s.mem sd_read_buf).getD j 0 =
        (s.mem sd_backup_buf).getD (add32 (mul32 i SD_BLOCK_SIZE) j) 0) →
      forUpTo n (SD_MeasureTest.compareByte c i) (ve, s) = (ve, s) := by
  intro n
  induction n with
  | zero => intro _; rfl
  | succ n ih =>
    intro h
    rw [forUpTo_succ, ih (fun j hj => h j (by omega))]
    simp only [SD_MeasureTest.compareByte, h n (by omega), ne_eq, not_true_eq_false, if_false]

theorem verifyBlock_smooth (c : Config) (E : Env) (fuel i : Nat) (s : State)
    (hS : Smooth c E) (hf : fuel ≠ 0) (hle : c.SD_TEST_BLOCKS ≤ 256)
    (hfit : c.SD_TEST_BLOCK_START + c.SD_TEST_BLOCKS ≤ U32) (hi : i < c.SD_TEST_BLOCKS)
    (hs : Synced c s) :
    ∃ s', SD_MeasureTest.verifyBlock c E fuel i 0 s = Except.ok (Flow.next 0 s') ∧
      Synced c s' := by
  have hblk : add32 c.SD_TEST_BLOCK_START i = c.SD_TEST_BLOCK_START + i := by
    unfold add32
    exact Nat.mod_eq_of_lt (by omega)
  have hoff : ∀ j < SD_BLOCK_SIZE, add32 (mul32 i SD_BLOCK_SIZE) j = i * SD_BLOCK_SIZE + j := by
    intro j hj
    rw [mul32_blocks i (by omega)]
    unfold add32
    unfold SD_BLOCK_SIZE at hj ⊢
    unfold U32
    omega
  obtain ⟨s1, hs1⟩ : ∃ s1, s1 = (HAL_SD_ReadBlocks E sd_read_buf
      (add32 c.SD_TEST_BLOCK_START i) 1 c.SD_TIMEOUT_MS s).2 := ⟨_, rfl⟩
  have hst : (HAL_SD_ReadBlocks E sd_read_buf (add32 c.SD_TEST_BLOCK_START i) 1
      c.SD_TIMEOUT_MS s).1 = HAL_OK := by
    simp only [HAL_SD_ReadBlocks, hS.xfer]
  have hcard : s1.card = s.card := by rw [hs1]; rfl
  have hmem0 : s1.mem sd_backup_buf = s.mem sd_backup_buf := by
    rw [hs1]
    simp only [HAL_SD_ReadBlocks, setBuf]
    rw [if_neg (by decide)]
  have hmem1 : s1.mem sd_read_buf = cardRead s.card (c.SD_TEST_BLOCK_START + i) 1 ++
      (s.mem sd_read_buf).drop (1 * SD_BLOCK_SIZE) := by
    rw [hs1]
    simp only [HAL_SD_ReadBlocks, setBuf, hS.xfer, hblk, if_true, patch, List.foldl_nil]
  have hw := wait_first_poll c E fuel c.SD_TIMEOUT_MS s1 hf (hS.tick _) (hS.card _)
  have hcmp : ∀ j < SD_BLOCK_SIZE, (s1.mem sd_read_buf).getD j 0 =
      (s1.mem sd_backup_buf).getD (add32 (mul32 i SD_BLOCK_SIZE) j) 0 := by
    intro j hj
    have hj1 : j < 1 * SD_BLOCK_SIZE := by omega
    rw [hoff j hj, hmem0, hmem1,
      List.getD_append _ _ _ _ (by rw [cardRead_length]; exact hj1),
      cardRead_getD _ _ _ _ hj1, Nat.add_mul, Nat.add_assoc]
    exact hs (i * SD_BLOCK_SIZE + j) (by unfold SD_BLOCK_SIZE at hj ⊢; omega)
  have hcl := compareLoop_equal c i 0
    { s1 with nTick := s1.nTick + 2, nPoll := s1.nPoll + 1,
              log := Event.poll (E.cardState s1.nPoll) :: s1.log } SD_BLOCK_SIZE hcmp
  refine ⟨{ s1 with nTick := s1.nTick + 2, nPoll := s1.nPoll + 1,
                    log := Event.poll (E.cardState s1.nPoll) :: s1.log }, ?_, ?_⟩
  · unfold SD_MeasureTest.verifyBlock
    simp only []
    rw [← hs1, hst, hw]
    simp only [ne_eq, not_true_eq_false, if_false]
    rw [hcl]
  · intro k hk
    show s1.card _ = (s1.mem sd_backup_buf).getD k 0
    rw [hcard, hmem0]
    exact hs k hk

theorem verifyLoop_smooth (c : Config) (E : Env) (fuel : Nat) (hS : Smooth c E)
    (hf : fuel ≠ 0) (hle : c.SD_TEST_BLOCKS ≤ 256)
    (hfit : c.SD_TEST_BLOCK_START + c.SD_TEST_BLOCKS ≤ U32) :
    ∀ (rounds i : Nat) (s : State), i + rounds ≤ c.SD_TEST_BLOCKS → Synced c s →
      ∃ s', SD_MeasureTest.verifyLoop c E fuel rounds i 0 s = Except.ok (Flow.next 0 s') := by
  intro rounds
  induction rounds with
  | zero => intro i s _ _; exact ⟨s, rfl⟩
  | succ rounds ih =>
    intro i s hi hs
    obtain ⟨s1, h1, y1⟩ := verifyBlock_smooth c E fuel i s hS hf hle hfit (by omega) hs
    obtain ⟨s2, h2⟩ := ih (i + 1) s1 (by omega) y1
    refine ⟨s2, ?_⟩
    simp only [SD_MeasureTest.verifyLoop, h1, Flow.andThen]
    exact h2

theorem checkReady_smooth (c : Config) (E : Env) (s : State) (hS : Smooth c E) :
    ∃ s', SD_MeasureTest.checkReady c E s = Except.ok (Flow.next () s') ∧
      s'.nTick = s.nTick := by
  refine ⟨(HAL_SD_GetCardState E (printf Msg.checkReady s)).2, ?_, rfl⟩
  simp [SD_MeasureTest.checkReady, HAL_SD_GetCardState, hS.card]

/-- On hardware on which nothing fails, with a test range of 1 to 256 blocks that
lies within the 32-bit block addresses, `SD_MeasureTest` reaches the report with no
mismatch; the times it divides by are the differences of the ticks read around the
write step and around the backup step. -/
theorem body_smooth (c : Config) (E : Env) (fuel : Nat) (s : State) (hS : Smooth c E)
    (hf : fuel ≠ 0) (hn : c.SD_TEST_BLOCKS ≠ 0) (hle : c.SD_TEST_BLOCKS ≤ 256)
    (hfit : c.SD_TEST_BLOCK_START + c.SD_TEST_BLOCKS ≤ U32) :
    ∃ s1, SD_MeasureTest.body c E fuel s = SD_MeasureTest.report c 0
      (sub32 (E.tick (s.nTick + 23) % U32) (E.tick (s.nTick + 12) % U32))
      (sub32 (E.tick (s.nTick + 11) % U32) (E.tick s.nTick % U32)) s1 := by
  obtain ⟨s0, h0, t0⟩ := checkReady_smooth c E (printf Msg.testBegin s) hS
  obtain ⟨s2, h2, t2⟩ := backup_smooth c E fuel s0 hS hf hn
  obtain ⟨s3, h3, y3⟩ := write_smooth c E fuel (SD_MeasureTest.mutate c s2) hS hf hn
  obtain ⟨s4, h4⟩ := verifyLoop_smooth c E fuel hS hf hle hfit c.SD_TEST_BLOCKS 0
    (printf Msg.verifyBegin s3) (by omega) (fun i hi => y3 i hi)
  have t0' : s0.nTick = s.nTick := t0
  have tm : (SD_MeasureTest.mutate c s2).nTick = s.nTick + 12 := by
    rw [← t0', ← t2]; rfl
  rw [tm] at h3
  rw [t0'] at h2
  refine ⟨s4, ?_⟩
  unfold SD_MeasureTest.body
  rw [if_neg hn, if_neg (by omega)]
  simp only [h0, Flow.andThen, h2, h3, SD_MeasureTest.verify, h4]

/-- A time of zero milliseconds, for the write step or for the backup step, stops the
report at the division. -/
theorem report_zero (c : Config) (wt rt : Nat) (s : State) (h : wt = 0 ∨ rt = 0) :
    SD_MeasureTest.report c 0 wt rt s = Except.error Stop.divByZero := by
  by_cases hw : wt = 0
  · simp [SD_MeasureTest.report, udiv32, hw]
  · have hr : rt = 0 := h.resolve_left hw
    simp [SD_MeasureTest.report, udiv32, hw, hr]

theorem sub32_same (x y : Nat) (h : x = y) : sub32 x y = 0 := by
  subst h
  unfold sub32 U32
  omega

/-- With at most 256 blocks no product of the throughput computation exceeds
`uint32_t`. -/
theorem throughput_no_overflow (n : Nat) (hle : n ≤ 256) :
    mul32 (mul32 n SD_BLOCK_SIZE) 4 = n * 512 * 4 ∧
    mul32 (n * 512 * 4 / 1024) 1000 = n * 512 * 4 / 1024 * 1000 ∧
    ∀ k : Nat, mul32 (k % 1024) 10 = k % 1024 * 10 := by
  refine ⟨?_, ?_, fun k => ?_⟩
  · unfold mul32 SD_BLOCK_SIZE U32
    omega
  · unfold mul32 U32
    omega
  · unfold mul32 U32
    omega

/-- C13 (the code): with 1 to 256 blocks the products of the throughput computation
(`total_bytes * 4`, `total_kb * 1000`, `(kbps % 1024) * 10`) stay below `2 ^ 32`.  The
divisors are not guarded: on hardware on which nothing fails, `SD_MeasureTest` reaches
the computation with zero mismatches, `read_time_ms` is the difference of the ticks
read around the backup step and `write_time_ms` that of the ticks read around the
write step; when the tick did not advance between the two reads of one of the steps,
that divisor is zero and the run ends in a division by zero, without a status. -/
theorem C13_zero_elapsed_time_is_a_zero_divisor (c : Config) (E : Env) (fuel : Nat)
    (s : State) (hn : c.SD_TEST_BLOCKS ≠ 0) (hle : c.SD_TEST_BLOCKS ≤ 256)
    (hfit : c.SD_TEST_BLOCK_START + c.SD_TEST_BLOCKS ≤ U32) (hf : fuel ≠ 0)
    (hS : Smooth c E)
    (hzero : E.tick (s.nTick + 11) % U32 = E.tick s.nTick % U32 ∨
      E.tick (s.nTick + 23) % U32 = E.tick (s.nTick + 12) % U32) :
    (mul32 (mul32 c.SD_TEST_BLOCKS SD_BLOCK_SIZE) 4 = c.SD_TEST_BLOCKS * 512 * 4 ∧
      mul32 (c.SD_TEST_BLOCKS * 512 * 4 / 1024) 1000 =
        c.SD_TEST_BLOCKS * 512 * 4 / 1024 * 1000 ∧
      ∀ k : Nat, mul32 (k % 1024) 10 = k % 1024 * 10) ∧
    (∃ s1, SD_MeasureTest.body c E fuel s = SD_MeasureTest.report c 0
      (sub32 (E.tick (s.nTick + 23) % U32) (E.tick (s.nTick + 12) % U32))
      (sub32 (E.tick (s.nTick + 11) % U32) (E.tick s.nTick % U32)) s1) ∧
    (sub32 (E.tick (s.nTick + 23) % U32) (E.tick (s.nTick + 12) % U32) = 0 ∨
      sub32 (E.tick (s.nTick + 11) % U32) (E.tick s.nTick % U32) = 0) ∧
    SD_MeasureTest c E fuel s = Except.error Stop.divByZero := by
  have hb := body_smooth c E fuel s hS hf hn hle hfit
  have hz : sub32 (E.tick (s.nTick + 23) % U32) (E.tick (s.nTick + 12) % U32) = 0 ∨
      sub32 (E.tick (s.nTick + 11) % U32) (E.tick s.nTick % U32) = 0 :=
    hzero.elim (fun h => Or.inr (sub32_same _ _ h)) (fun h => Or.inl (sub32_same _ _ h))
  refine ⟨throughput_no_overflow _ hle, hb, hz, ?_⟩
  obtain ⟨s1, h1⟩ := hb
  unfold SD_MeasureTest
  rw [h1, report_zero c _ _ s1 hz]

/-- Witness of C13: one block on the board `stm32`, on hardware on which nothing fails
and whose tick still reads 0 when the backup ends; `read_time_ms` is 0 and the run
ends in a division by zero. -/
theorem C13_zero_elapsed_time_is_a_zero_divisor_witness :
    Smooth stm32 quick ∧
    quick.tick (boot.nTick + 11) % U32 = quick.tick boot.nTick % U32 ∧
    sub32 (quick.tick (boot.nTick + 23) % U32) (quick.tick (boot.nTick + 12) % U32) = 11 ∧
    SD_MeasureTest stm32 quick 1 boot = Except.error Stop.divByZero :=
  have hstep : ∀ k : Nat, sub32 (quick.tick (k + 1) % U32) (quick.tick k % U32) < 1000 := by
    intro k
    simp only [quick, sub32, U32]
    split_ifs <;> omega
  have hS : Smooth stm32 quick :=
    ⟨fun _ => rfl, fun _ => rfl, hstep, fun k => Nat.lt_trans (hstep k) (by decide)⟩
  ⟨hS, by decide, by decide,
   (C13_zero_elapsed_time_is_a_zero_divisor stm32 quick 1 boot (by decide) (by decide)
     (by decide) (by decide) hS (Or.inl (by decide))).2.2.2⟩

end SD
